import Mathlib

/-!
# CloudSweep orchestration core: a shallow embedding

This file embeds the orchestration core of the `cloudsweep` repository in
Lean 4 and proves properties of it.  The embedding follows the Python source
files of the repository:

* `scanner/resource_scanner_registry.py` — the scanner registry
  (`ResourceScannerRegistry`): an insertion-ordered dictionary keyed by
  `argument_name`, with multi-keyed lookup (`get_scanner`) and registration
  (`add_scanner`).
* `scanner/argument_parser.py` — `ArgumentParser.get_scanners`, the
  pre-flight validation of the requested scanner list.
* `scanner/aws/account_scanner.py` — `AWSAccountScanner.scan_resources`,
  the per-account scan loop over regions and scanners.
* `scanner/executor.py` — `Executor.execute`: session fan-out, task
  construction, dispatch, collection and metrics.
* `scanner/aws/session_manager.py` — `AWSSessionManager`: session state,
  lazy session creation, `get_account_id`, `switch_region`, `assume_role`,
  `get_organization_accounts`, `assume_destination_role_in_all_accounts`.

Modelling conventions:

* Python dictionaries that the code relies on (for keyed results and the
  registry) are insertion-ordered association lists, matching CPython's
  ordered-`dict` semantics.
* External AWS calls (STS, Organizations, EC2 `describe_regions`, the
  individual scanner plugins, `boto3` session construction) are modelled by
  oracle functions supplied as parameters; an oracle returning `none` or
  `.error` models the call raising an exception.  `execute` takes the
  external calls of its fan-out as always succeeding; `executeE` addition-
  ally models the error paths the source leaves uncaught (the Organizations
  pagination and the per-session `get_account_id()`/`get_regions()`
  calls).
* The thread pools (`ThreadPoolExecutor` + `as_completed`) are modelled with
  completion order equal to submission order.  Every property proved below
  is a count, membership or keyed-shape property, hence invariant under any
  reordering of the completed futures.
* Wall-clock times (`time.time()` values) are modelled as exact rationals,
  and Python's `round(x, 2)` as round-half-to-even at two decimals over ℚ.
-/

namespace CloudSweep

/-! ## Findings

`Finding` records are produced by the out-of-scope scanner plugins and passed
through unmodified; we model them as an opaque payload string. -/

abbrev Finding := String

/-! ## Ordered dictionaries (CPython `dict` semantics)

Insertion-ordered association lists: assigning to an existing key replaces
the value in place, assigning to a fresh key appends at the end. -/

abbrev Dict (α : Type) := List (String × α)

/-- `d[k] = v` on a Python dict: replace in place if `k` is present,
otherwise append at the end. -/
def dictSet {α : Type} (d : Dict α) (k : String) (v : α) : Dict α :=
  if d.any (fun p => p.1 == k) then
    d.map (fun p => if p.1 == k then (k, v) else p)
  else
    d ++ [(k, v)]

/-- `d.get(k)` on a Python dict. -/
def dictGet {α : Type} (d : Dict α) (k : String) : Option α :=
  (d.find? (fun p => p.1 == k)).map Prod.snd

/-- `d[k].extend(vs)` on a `defaultdict(list)`: the key access materialises
an empty list when the key is absent, then `extend` appends. -/
def dictExtend {α : Type} (d : Dict (List α)) (k : String) (vs : List α) : Dict (List α) :=
  match dictGet d k with
  | some old => dictSet d k (old ++ vs)
  | none => d ++ [(k, vs)]

/-! ## `scanner/resource_scanner_registry.py` -/

/-- ASCII lowercasing of one character (CPython `str.lower()` on the ASCII
identifiers involved here). -/
def lowerChar (c : Char) : Char :=
  if 'A' ≤ c ∧ c ≤ 'Z' then Char.ofNat (c.toNat + 32) else c

/-- Python `str.lower()`, modelled over the character list (Lean's built-in
`String.toLower` does not reduce in the kernel; for the ASCII scanner
identifiers the semantics agree). -/
def lowerStr (s : String) : String := String.mk (s.data.map lowerChar)

/-- Helper for `splitComma`: accumulate characters until a comma. -/
def splitCommaChars : List Char → List Char → List String
  | [], acc => [String.mk acc.reverse]
  | c :: cs, acc =>
    if c = ',' then String.mk acc.reverse :: splitCommaChars cs []
    else splitCommaChars cs (c :: acc)

/-- Python `s.split(",")`, modelled over the character list. -/
def splitComma (s : String) : List String := splitCommaChars s.data []

/-- A scanner class as seen by the registry: its Python class name, its
`argument_name` (short alias), its `label`, and whether
`issubclass(cls, ResourceScannerRegistry)` holds, which is the only thing
`add_scanner` checks about the class. -/
structure ScannerClass where
  className : String
  argument_name : String
  label : String
  subclassOfRegistry : Bool
deriving DecidableEq, Repr

/-- `ResourceScannerRegistry._registry`: a dict keyed by `argument_name`. -/
abbrev Registry := Dict ScannerClass

/-- `ResourceScannerRegistry.add_scanner` (resource_scanner_registry.py,
lines 36-49): raise `ValueError` unless the class is a subclass of
`ResourceScannerRegistry`, otherwise assign
`cls._registry[argument_name] = scanner_class`. -/
def add_scanner (r : Registry) (c : ScannerClass) : Except String Registry :=
  if !c.subclassOfRegistry then
    .error "The scanner must be a subclass of ResourceScannerRegistry."
  else
    .ok (dictSet r c.argument_name c)

/-- `ResourceScannerRegistry.get_scanner` (lines 50-78): try
`_registry.get(identifier)` first, then the first registered scanner whose
`label` equals the identifier, then the first whose class name matches
case-insensitively; raise `ValueError` when none match. -/
def get_scanner (r : Registry) (identifier : String) : Except String ScannerClass :=
  match dictGet r identifier with
  | some c => .ok c
  | none =>
    match r.find? (fun p => p.2.label == identifier) with
    | some p => .ok p.2
    | none =>
      match r.find? (fun p => lowerStr p.2.className == lowerStr identifier) with
      | some p => .ok p.2
      | none =>
        .error ("Scanner with identifier " ++ identifier ++
          " not found (by class name, argument_name, or label).")

/-- Insertion of a string into a sorted list (used to model Python
`sorted`). -/
def insertSorted (x : String) : List String → List String
  | [] => [x]
  | y :: ys => if x ≤ y then x :: y :: ys else y :: insertSorted x ys

/-- Python `sorted` over strings. -/
def sortStrings (l : List String) : List String := l.foldr insertSorted []

/-- `ResourceScannerRegistry.list_scanners` (lines 81-90):
`sorted(cls._registry.keys())`. -/
def list_scanners (r : Registry) : List String :=
  sortStrings (r.map Prod.fst)

/-! ## `scanner/argument_parser.py` — `ArgumentParser.get_scanners`

Lines 38-75.  The `--list-scanners` early-exit path is not modelled (it
terminates the process).  For an explicit comma-separated list, each name is
passed to `ResourceScannerRegistry.get_scanner`, which raises on the first
unresolvable name; the `else` branch printing "invalid or not found" is
unreachable because `get_scanner` never returns a falsy value. -/

/-- The validation loop of `get_scanners`: append each requested name after
`get_scanner` succeeds on it, propagating the first lookup error. -/
def validateScanners (r : Registry) : List String → Except String (List String)
  | [] => .ok []
  | name :: rest =>
    match get_scanner r name with
    | .error e => .error e
    | .ok _ =>
      match validateScanners r rest with
      | .error e => .error e
      | .ok names => .ok (name :: names)

/-- `ArgumentParser.get_scanners` for a scanners argument string:
`"all"` (or an empty/falsy value) selects every registered alias, otherwise
the comma-separated names are validated one by one.  `sys.exit(1)` on an
empty validated list is modelled as an error. -/
def get_scanners (r : Registry) (argScanners : String) : Except String (List String) :=
  if argScanners == "all" then
    .ok (list_scanners r)
  else if argScanners != "" then
    match validateScanners r (splitComma argScanners) with
    | .error e => .error e
    | .ok names =>
      if names.isEmpty then .error "No valid scanners were provided." else .ok names
  else
    .ok (list_scanners r)

/-! ## `scanner/aws/account_scanner.py` — `AWSAccountScanner.scan_resources`

The per-region scan (lines 37-72): switch the session's region (an exception
skips the whole region via `continue`), then run every requested scanner,
catching exceptions from registry lookup and from the plugin's `scan`.  A
`(region, scanner)` cell entry is created only by
`region_scan_results[scanner_label].extend(resources)`, i.e. only after the
plugin returned successfully (possibly with an empty list). -/

/-- The external collaborators of one `scan_resources` call:
* `registry` — the process-wide `ResourceScannerRegistry._registry`;
* `switchRegionOk region` — whether `session.switch_region(region, account_id)`
  succeeds (`false` models the call raising);
* `plugin label region` — the outcome of the resolved scanner's
  `scan(session)` in that region (`none` models the plugin raising). -/
structure ScanEnv where
  registry : Registry
  switchRegionOk : String → Bool
  plugin : String → String → Option (List Finding)

/-- The `region_scan_results` map for one region: scanner label ↦ findings. -/
abbrev RegionResults := Dict (List Finding)

/-- One iteration of the inner scanner loop of `scan_resources` (lines
50-68): lookup errors and plugin exceptions are caught and leave the
accumulator unchanged; a successful scan extends the cell with the
findings. -/
def scanStep (env : ScanEnv) (region : String) (acc : RegionResults)
    (label : String) : RegionResults :=
  match get_scanner env.registry label with
  | .error _ => acc
  | .ok _ =>
    match env.plugin label region with
    | none => acc
    | some res => dictExtend acc label res

/-- The inner scanner loop of `scan_resources` for one region. -/
def scanRegion (env : ScanEnv) (region : String) (scanners : List String) : RegionResults :=
  scanners.foldl (scanStep env region) []

/-- The dictionary returned by `scan_resources` (lines 75-79).  Note its
keys: there is no account-name field. -/
structure ScanRecord where
  account_id : String
  regions : List String
  scan_results : Dict RegionResults
deriving DecidableEq, Repr

/-- The keys of the dict literal returned at account_scanner.py lines 75-79. -/
def scanRecordKeys : List String := ["account_id", "regions", "scan_results"]

/-- `AWSAccountScanner.scan_resources` (lines 23-79): iterate over the
requested regions; a failed region switch skips that region (`continue`);
otherwise the region's results are assigned into `all_scan_results`.  The
returned record carries the *requested* regions list verbatim. -/
def scan_resources (env : ScanEnv) (account_id : String)
    (regions scanners : List String) : ScanRecord :=
  let srs := regions.foldl (fun acc region =>
    if env.switchRegionOk region then
      dictSet acc region (scanRegion env region scanners)
    else acc) []
  { account_id := account_id, regions := regions, scan_results := srs }

/-! ## `scanner/executor.py` — `Executor` -/

/-- The positional parameters of `AWSAccountScanner.scan_resources` after
`self` (account_scanner.py line 23):
`def scan_resources(self, session, account_id, regions, scanners)`. -/
def scanResourcesParams : List String := ["session", "account_id", "regions", "scanners"]

/-- The number of positional arguments `Executor._scan_region_scanner`
passes to `scan_resources` (executor.py line 122):
`scanner.scan_resources(session, account_id, account_name, [region], [scanner_name])`. -/
def executorScanResourcesArgCount : Nat := 5

/-- A Python positional call binds exactly when the argument count matches
the parameter count (`scan_resources` has no defaults, `*args` or
`**kwargs`); otherwise the call raises `TypeError`. -/
def pythonCallBinds (paramCount argCount : Nat) : Bool := argCount == paramCount

/-- `Executor._scan_region_scanner` (executor.py lines 109-127): invoke
`scan_resources` with the five arguments of line 122; any exception —
including the `TypeError` from a non-binding call — is caught and `None` is
returned. -/
def scan_region_scanner (env : ScanEnv) (account_id : String)
    (account_name : Option String) (region scanner_name : String) : Option ScanRecord :=
  if pythonCallBinds scanResourcesParams.length executorScanResourcesArgCount then
    some (scan_resources env account_id [region] [scanner_name])
  else
    none

/-- What `Executor.execute` observes about one assumed per-account session:
`session.get_account_id()` and `session.get_regions()`. -/
structure Session where
  account_id : String
  regions : List String
deriving DecidableEq, Repr

/-- An entry of the `self.accounts` list (dicts with `"Id"` and `"Name"`). -/
structure Account where
  Id : String
  Name : String
deriving DecidableEq, Repr

/-- The `--regions` configuration: the string `"all"` (or an empty list,
which Python treats as falsy) selects every available region. -/
inductive RegionsArg where
  | all : RegionsArg
  | explicit (rs : List String) : RegionsArg
deriving DecidableEq, Repr

/-- `Executor._get_regions_for_session` (executor.py lines 101-107):
`"all"` or a falsy region list yields `session.get_regions()`, otherwise
the session's regions are filtered against the requested ones. -/
def get_regions_for_session (regionsArg : RegionsArg) (s : Session) : List String :=
  match regionsArg with
  | .all => s.regions
  | .explicit [] => s.regions
  | .explicit rs => s.regions.filter (fun r => rs.contains r)

/-- Prefix test over character lists. -/
def prefixChars : List Char → List Char → Bool
  | [], _ => true
  | _ :: _, [] => false
  | p :: ps, c :: cs => p == c && prefixChars ps cs

/-- Python `s.startswith(pre)`, modelled over the character list (Lean's
built-in `String.startsWith` does not reduce in the kernel). -/
def startsWithStr (pre s : String) : Bool := prefixChars pre.data s.data

/-- The classification used at executor.py line 58: a scanner is scanned
once per account (with region `"Global"`) exactly when its name starts with
`"iam"` (`scanner_name.startswith("iam")`). -/
def accountScoped (scanner_name : String) : Bool := startsWithStr "iam" scanner_name

/-- One submitted unit of work: the arguments of one
`executor.submit(self._scan_region_scanner, ...)` call. -/
structure Task where
  account_id : String
  account_name : Option String
  region : String
  scanner_name : String
deriving DecidableEq, Repr

/-- The account-name lookup at executor.py line 49:
`next((acc["Name"] for acc in self.accounts if str(acc["Id"]) == str(account_id)), None)`. -/
def lookupAccountName (accounts : List Account) (account_id : String) : Option String :=
  (accounts.find? (fun a => a.Id == account_id)).map Account.Name

/-- The filter at executor.py line 51: a session is skipped when an explicit
accounts list is given and does not contain the session's account id. -/
def keepSession (accounts : List Account) (account_id : String) : Bool :=
  accounts.isEmpty || accounts.any (fun a => a.Id == account_id)

/-- The tasks submitted for one session (executor.py lines 46-68): the
scanner loop is outer, the region loop inner, and scanners whose name starts
with `"iam"` get a single `"Global"` task. -/
def tasksForSession (accounts : List Account) (regionsArg : RegionsArg)
    (scanners : List String) (s : Session) : List Task :=
  if keepSession accounts s.account_id then
    scanners.flatMap (fun sc =>
      if accountScoped sc then
        [{ account_id := s.account_id,
           account_name := lookupAccountName accounts s.account_id,
           region := "Global", scanner_name := sc }]
      else
        (get_regions_for_session regionsArg s).map (fun r =>
          { account_id := s.account_id,
            account_name := lookupAccountName accounts s.account_id,
            region := r, scanner_name := sc }))
  else
    []

/-- All tasks submitted during `Executor.execute` (lines 44-70), in
submission order. -/
def buildTasks (accounts : List Account) (regionsArg : RegionsArg)
    (scanners : List String) (sessions : List Session) : List Task :=
  sessions.flatMap (tasksForSession accounts regionsArg scanners)

/-- The collection loop of `Executor.execute` (lines 73-81): truthy results
are appended and counted in `total_scans`; `None` results and exceptions
re-raised by `future.result()` are skipped.  (A `ScanRecord` dict has three
keys and is always truthy.) -/
def collect (futureResults : List (Option ScanRecord)) : List ScanRecord × Nat :=
  futureResults.foldl (fun acc fr =>
    match fr with
    | some rec => (acc.1 ++ [rec], acc.2 + 1)
    | none => acc) ([], 0)

/-- Round-half-to-even on rationals (CPython's rounding mode for `round`). -/
def roundHalfEven (q : ℚ) : ℤ :=
  if q - ⌊q⌋ < 1/2 then ⌊q⌋
  else if q - ⌊q⌋ > 1/2 then ⌊q⌋ + 1
  else if ⌊q⌋ % 2 = 0 then ⌊q⌋ else ⌊q⌋ + 1

/-- Python `round(x, 2)` over exact rationals. -/
def pyRound2 (q : ℚ) : ℚ := (roundHalfEven (q * 100) : ℚ) / 100

/-- The `scan_metrics` dict built at executor.py lines 91-97, with times as
exact rationals. -/
structure Metrics where
  start_time : ℚ
  end_time : ℚ
  total_scans : Nat
  avg_scans_per_second : ℚ
  total_run_time : ℚ
deriving DecidableEq, Repr

/-- Metric computation at executor.py lines 87-97:
`avg = total_scans / total_run_time if total_run_time > 0 else 0`, stored as
`round(avg, 2)`; `total_run_time` is stored rounded as well. -/
def mkMetrics (total : Nat) (startTime endTime : ℚ) : Metrics :=
  let elapsed := endTime - startTime
  let avg : ℚ := if elapsed > 0 then (total : ℚ) / elapsed else 0
  { start_time := startTime, end_time := endTime, total_scans := total,
    avg_scans_per_second := pyRound2 avg, total_run_time := pyRound2 elapsed }

/-! ## `scanner/aws/session_manager.py` — organization fan-out -/

/-- An account dict returned by the Organizations `list_accounts` pages. -/
structure OrgAccount where
  Id : String
  Name : String
  Status : String
deriving DecidableEq, Repr

/-- `AWSSessionManager.get_organization_accounts` (session_manager.py lines
159-201): when no organization session is cached and no organization role is
configured, a `ValueError` is raised (the fatal configuration error);
otherwise the paginated listing is filtered to `ACTIVE` accounts.  The
listing itself is an oracle input (`rawAccounts`). -/
def get_organization_accounts (organization_role : Option String)
    (orgSessionCached : Bool) (rawAccounts : List OrgAccount) :
    Except String (List OrgAccount) :=
  if !orgSessionCached && organization_role.isNone then
    .error "Organization role is required to get organization accounts but was not provided."
  else
    .ok (rawAccounts.filter (fun a => a.Status == "ACTIVE"))

/-- `AWSSessionManager.assume_destination_role_in_all_accounts` (lines
221-259) with `_assume_role_for_account` (lines 261-283): one role
assumption per active account, where `_assume_role_for_account` catches any
exception and returns `None`; the collection loop keeps exactly the truthy
(non-`None`) sessions.  `outcome a = none` models a failed assumption for
account `a`. -/
def assume_destination_role_in_all_accounts (organization_role : Option String)
    (orgSessionCached : Bool) (rawAccounts : List OrgAccount)
    (outcome : OrgAccount → Option Session) : Except String (List Session) :=
  match get_organization_accounts organization_role orgSessionCached rawAccounts with
  | .error e => .error e
  | .ok active => .ok (active.filterMap outcome)

/-- Everything `Executor.execute` consumes: the session manager's
organization configuration, the role-assumption oracle, the constructor
arguments of `Executor`, the scan-time oracles, and the two `time.time()`
readings. -/
structure ExecCfg where
  organization_role : Option String
  orgSessionCached : Bool
  rawAccounts : List OrgAccount
  outcome : OrgAccount → Option Session
  accounts : List Account
  regionsArg : RegionsArg
  scanners : List String
  env : ScanEnv
  startTime : ℚ
  endTime : ℚ

/-- The tasks `execute` submits under configuration `cfg` (empty when the
session fan-out raised). -/
def executeTasks (cfg : ExecCfg) : List Task :=
  match assume_destination_role_in_all_accounts cfg.organization_role
      cfg.orgSessionCached cfg.rawAccounts cfg.outcome with
  | .error _ => []
  | .ok sessions => buildTasks cfg.accounts cfg.regionsArg cfg.scanners sessions

/-- `Executor.execute` (executor.py lines 26-99): assume roles in all
accounts (a configuration error propagates), build and dispatch the task
matrix, collect the truthy results, and compute the metrics.  Completion
order is modelled as submission order. -/
def execute (cfg : ExecCfg) : Except String (List ScanRecord × Metrics) :=
  match assume_destination_role_in_all_accounts cfg.organization_role
      cfg.orgSessionCached cfg.rawAccounts cfg.outcome with
  | .error e => .error e
  | .ok sessions =>
    let tasks := buildTasks cfg.accounts cfg.regionsArg cfg.scanners sessions
    let futureResults := tasks.map (fun t =>
      scan_region_scanner cfg.env t.account_id t.account_name t.region t.scanner_name)
    let collected := collect futureResults
    .ok (collected.1, mkMetrics collected.2 cfg.startTime cfg.endTime)

/-! ## `Executor.execute` with its uncaught error paths

`execute` is the simplified model above in which the external calls of the
session fan-out always return values.  The source, however, leaves several
error paths uncaught: `get_organization_accounts` re-raises any exception
from the Organizations pagination (session_manager.py lines 199-201), the
outer `try` of `assume_destination_role_in_all_accounts` re-raises it again
(lines 257-259), and `execute` calls `session.get_account_id()` (executor.py
line 48) and `session.get_regions()` (line 55, via
`_get_regions_for_session`, line 106) outside any `try`, so a `ClientError`
from STS or EC2 propagates out of `execute`.  The `…E` variants below model
exactly these fallible calls. -/

/-- What the executor observes of one assumed session, with the calls
`session.get_account_id()` (executor.py line 48) and `session.get_regions()`
(line 106, reached from line 55) modelled as fallible: `.error` models the
underlying `ClientError` propagating, since neither call is inside a `try`
in `execute`. -/
structure SessionE where
  sts : Except String String
  regionsCall : Except String (List String)

/-- `get_organization_accounts` with the Organizations pagination modelled
as fallible: an exception raised while paginating `list_accounts` is
re-raised (session_manager.py lines 199-201), so `listing = .error e`
propagates. -/
def get_organization_accountsE (organization_role : Option String)
    (orgSessionCached : Bool) (listing : Except String (List OrgAccount)) :
    Except String (List OrgAccount) :=
  if !orgSessionCached && organization_role.isNone then
    .error "Organization role is required to get organization accounts but was not provided."
  else
    match listing with
    | .error e => .error e
    | .ok rawAccounts => .ok (rawAccounts.filter (fun a => a.Status == "ACTIVE"))

/-- `assume_destination_role_in_all_accounts` over the fallible listing:
the outer `try` (lines 257-259) re-raises the listing error; per-account
assumption failures are still dropped. -/
def assume_destination_role_in_all_accountsE (organization_role : Option String)
    (orgSessionCached : Bool) (listing : Except String (List OrgAccount))
    (outcome : OrgAccount → Option SessionE) : Except String (List SessionE) :=
  match get_organization_accountsE organization_role orgSessionCached listing with
  | .error e => .error e
  | .ok active => .ok (active.filterMap outcome)

/-- The task-construction loop of `execute` (lines 46-68) with the fallible
observation calls: `session.get_account_id()` is called before the
allow-list check, `session.get_regions()` after it, and an error from
either call aborts the whole loop (it is raised out of `execute`). -/
def buildTasksE (accounts : List Account) (regionsArg : RegionsArg)
    (scanners : List String) : List SessionE → Except String (List Task)
  | [] => .ok []
  | s :: rest =>
    match s.sts with
    | .error e => .error e
    | .ok account_id =>
      if keepSession accounts account_id then
        match s.regionsCall with
        | .error e => .error e
        | .ok regs =>
          match buildTasksE accounts regionsArg scanners rest with
          | .error e => .error e
          | .ok ts =>
            .ok (tasksForSession accounts regionsArg scanners
              { account_id := account_id, regions := regs } ++ ts)
      else
        buildTasksE accounts regionsArg scanners rest

/-- The configuration of `executeE`, with the Organizations listing and the
per-session observation calls fallible. -/
structure ExecCfgE where
  organization_role : Option String
  orgSessionCached : Bool
  listing : Except String (List OrgAccount)
  outcome : OrgAccount → Option SessionE
  accounts : List Account
  regionsArg : RegionsArg
  scanners : List String
  env : ScanEnv
  startTime : ℚ
  endTime : ℚ

/-- `Executor.execute` with its uncaught error paths: a listing error from
the session fan-out and a `ClientError` from `get_account_id()` or
`get_regions()` during task construction escape; only task-level failures
are contained. -/
def executeE (cfg : ExecCfgE) : Except String (List ScanRecord × Metrics) :=
  match assume_destination_role_in_all_accountsE cfg.organization_role cfg.orgSessionCached
      cfg.listing cfg.outcome with
  | .error e => .error e
  | .ok sessions =>
    match buildTasksE cfg.accounts cfg.regionsArg cfg.scanners sessions with
    | .error e => .error e
    | .ok tasks =>
      let futureResults := tasks.map (fun t =>
        scan_region_scanner cfg.env t.account_id t.account_name t.region t.scanner_name)
      let collected := collect futureResults
      .ok (collected.1, mkMetrics collected.2 cfg.startTime cfg.endTime)

/-- The `main.py` ordering relevant to pre-flight validation: scanner
validation (`ArgumentParser.get_scanners`, called from
`parse_and_prepare_args`) runs before the `Executor` is even constructed;
only when it succeeds does `executor.execute()` run with the validated
list. -/
def mainPipelineE (r : Registry) (argScanners : String) (cfg : ExecCfgE) :
    Except String (List ScanRecord × Metrics) :=
  match get_scanners r argScanners with
  | .error e => .error e
  | .ok scanners => executeE { cfg with scanners := scanners }

/-! ## `scanner/aws/session_manager.py` — per-instance state

For the mutation claims we model an `AWSSessionManager` instance by the
fields its `__init__` assigns (lines 23-34), and each operation as an
explicit state transition returning the updated `self` together with its
Python return value. -/

/-- A `boto3.Session` value: either built from a profile or from explicit
temporary credentials, optionally bound to a region. -/
structure BotoSession where
  access_key : String
  secret_key : String
  token : String
  source_region : Option String
deriving DecidableEq, Repr

/-- Frozen credentials as returned by
`session.get_credentials().get_frozen_credentials()`. -/
structure Creds where
  access_key : String
  secret_key : String
  token : String
deriving DecidableEq, Repr

/-- The external calls a session manager makes:
* `profileSession p` — `boto3.Session(profile_name=p, ...)`;
* `stsAccount b` — `sts.get_caller_identity()["Account"]` on session `b`;
* `describeRegions b` — the region names from `ec2.describe_regions()`;
* `frozenCreds b` — the session's frozen credentials;
* `assumeRoleCall arn` — the credentials from `sts.assume_role`, or `none`
  when the call raises a `ClientError`. -/
structure SmOracles where
  profileSession : String → BotoSession
  stsAccount : BotoSession → String
  describeRegions : BotoSession → List String
  frozenCreds : BotoSession → Creds
  assumeRoleCall : String → Option Creds

/-- The mutable fields of an `AWSSessionManager` instance (lines 23-34). -/
structure SessionState where
  profile_name : String
  region_name : Option String
  runner_role : Option String
  organization_role : Option String
  account_id : Option String
  cachedSession : Option BotoSession
  regions : List String
deriving DecidableEq, Repr

/-- `AWSSessionManager.get_session` (lines 41-61): return the cached
session, creating and *caching* it from the profile on first use. -/
def get_session (o : SmOracles) (s : SessionState) : SessionState × BotoSession :=
  match s.cachedSession with
  | some b => (s, b)
  | none =>
    let b := o.profileSession s.profile_name
    ({ s with cachedSession := some b }, b)

/-- `AWSSessionManager.get_account_id` (lines 63-79): call STS on the
current session and *store* the answer in `self.account_id` before
returning it. -/
def get_account_id (o : SmOracles) (s : SessionState) : SessionState × String :=
  let p := get_session o s
  let acct := o.stsAccount p.2
  ({ p.1 with account_id := some acct }, acct)

/-- `AWSSessionManager.__init__` (lines 14-39) for a construction without an
organization role (the form used by `switch_region` and `assume_role`):
every field is assigned, `self.account_id` ends up `None` because line 31
re-assigns it to `None` after line 28, and `self.regions = self.get_regions()`
forces creation (and caching) of the profile session. -/
def initManager (o : SmOracles) (profile : String) : SessionState :=
  let b := o.profileSession profile
  { profile_name := profile, region_name := none, runner_role := none,
    organization_role := none, account_id := none,
    cachedSession := some b, regions := o.describeRegions b }

/-- `AWSSessionManager.resolve_role_arn` (lines 300-313). -/
def resolve_role_arn (role_name account_id : String) : String :=
  "arn:aws:iam::" ++ account_id ++ ":role/" ++ role_name

/-- `AWSSessionManager.switch_region` (lines 315-343): freeze the current
session's credentials (creating the session first if needed), build a fresh
`boto3.Session` bound to the new region, and return a *new* manager carrying
it; the new manager's `account_id` is `None` despite the constructor
argument, because `__init__` line 31 resets it.  The returned pair is
(updated `self`, new manager). -/
def switch_region (o : SmOracles) (s : SessionState)
    (new_region_name : String) (_account_id : String) : SessionState × SessionState :=
  let p := get_session o s
  let c := o.frozenCreds p.2
  let newSession : BotoSession :=
    { access_key := c.access_key, secret_key := c.secret_key,
      token := c.token, source_region := some new_region_name }
  let newMgr :=
    { initManager o s.profile_name with
        cachedSession := some newSession, region_name := some new_region_name }
  (p.1, newMgr)

/-- `AWSSessionManager.assume_role` (lines 100-143): take an STS client from
the optional session argument or from `self` (caching on `self` in the
latter case), call `assume_role` on the resolved ARN, and wrap the returned
credentials in a *new* manager; a `ClientError` propagates.  The returned
pair is (updated `self`, outcome). -/
def assume_role (o : SmOracles) (s : SessionState)
    (role_name account_id : String) (sessionArg : Option SessionState) :
    SessionState × Except String SessionState :=
  let p : SessionState × BotoSession :=
    match sessionArg with
    | some t => (s, (get_session o t).2)
    | none => get_session o s
  match o.assumeRoleCall (resolve_role_arn role_name account_id) with
  | none => (p.1, .error "ClientError: could not assume role")
  | some c =>
    let newSession : BotoSession :=
      { access_key := c.access_key, secret_key := c.secret_key,
        token := c.token, source_region := none }
    let newMgr := { initManager o s.profile_name with cachedSession := some newSession }
    (p.1, .ok newMgr)

/-! ## Helper lemmas about ordered dictionaries -/

theorem dictGet_cons {α : Type} (p : String × α) (d : Dict α) (k : String) :
    dictGet (p :: d) k = if p.1 == k then some p.2 else dictGet d k := by
  by_cases h : p.1 == k <;>
    simp [dictGet, List.find?_cons_of_pos, List.find?_cons_of_neg, h]

theorem dictGet_append_of_none {α : Type} {d₁ : Dict α} {k : String} (d₂ : Dict α)
    (h : dictGet d₁ k = none) : dictGet (d₁ ++ d₂) k = dictGet d₂ k := by
  induction d₁ with
  | nil => simp
  | cons p d ih =>
    rw [dictGet_cons] at h
    by_cases hp : p.1 == k
    · simp [hp] at h
    · simp only [hp, if_false] at h
      simp only [List.cons_append, dictGet_cons, hp, if_false]
      exact ih h

theorem dictGet_append_of_some {α : Type} {d₁ : Dict α} {k : String} {v : α} (d₂ : Dict α)
    (h : dictGet d₁ k = some v) : dictGet (d₁ ++ d₂) k = some v := by
  induction d₁ with
  | nil => simp [dictGet] at h
  | cons p d ih =>
    rw [dictGet_cons] at h
    by_cases hp : p.1 == k
    · simp only [hp, if_true] at h
      simp only [List.cons_append, dictGet_cons, hp, if_true]
      exact h
    · simp only [hp, if_false] at h
      simp only [List.cons_append, dictGet_cons, hp, if_false]
      exact ih h

theorem dictGet_eq_none_of_any_eq_false {α : Type} (d : Dict α) (k : String)
    (h : d.any (fun p => p.1 == k) = false) :
    dictGet d k = none := by
  induction d with
  | nil => rfl
  | cons p d ih =>
    simp only [List.any_cons, Bool.or_eq_false_iff] at h
    rw [dictGet_cons, if_neg (by simp [h.1])]
    exact ih h.2

theorem dictGet_map_set_self {α : Type} (d : Dict α) (k : String) (v : α)
    (h : d.any (fun p => p.1 == k) = true) :
    dictGet (d.map (fun p => if p.1 == k then (k, v) else p)) k = some v := by
  induction d with
  | nil => simp at h
  | cons p d ih =>
    simp only [List.map_cons]
    by_cases hp : (p.1 == k) = true
    · rw [if_pos hp, dictGet_cons, if_pos (by simp)]
    · rw [if_neg hp, dictGet_cons, if_neg hp]
      apply ih
      simp only [List.any_cons, Bool.or_eq_true] at h
      rcases h with h | h
      · exact absurd h hp
      · exact h

theorem dictGet_map_set_other {α : Type} (d : Dict α) (k k' : String) (v : α)
    (h : k' ≠ k) :
    dictGet (d.map (fun p => if p.1 == k then (k, v) else p)) k' = dictGet d k' := by
  have hk' : ¬ ((k == k') = true) := by simpa using fun hh => h hh.symm
  induction d with
  | nil => rfl
  | cons p d ih =>
    simp only [List.map_cons]
    by_cases hp : (p.1 == k) = true
    · have hp1 : p.1 = k := by simpa using hp
      have hpk' : ¬ ((p.1 == k') = true) := by rw [hp1]; exact hk'
      rw [if_pos hp, dictGet_cons, dictGet_cons, if_neg hpk', if_neg hk', ih]
    · rw [if_neg hp, dictGet_cons, dictGet_cons]
      by_cases hpk' : (p.1 == k') = true
      · rw [if_pos hpk', if_pos hpk']
      · rw [if_neg hpk', if_neg hpk', ih]

theorem dictGet_dictSet_self {α : Type} (d : Dict α) (k : String) (v : α) :
    dictGet (dictSet d k v) k = some v := by
  unfold dictSet
  by_cases h : (d.any (fun p => p.1 == k)) = true
  · rw [if_pos h]
    exact dictGet_map_set_self d k v h
  · rw [if_neg h]
    rw [dictGet_append_of_none _ (dictGet_eq_none_of_any_eq_false d k (Bool.eq_false_iff.mpr h))]
    rw [dictGet_cons, if_pos (by simp)]

theorem dictGet_dictSet_other {α : Type} (d : Dict α) (k k' : String) (v : α)
    (h : k' ≠ k) :
    dictGet (dictSet d k v) k' = dictGet d k' := by
  unfold dictSet
  by_cases hd : (d.any (fun p => p.1 == k)) = true
  · rw [if_pos hd]
    exact dictGet_map_set_other d k k' v h
  · rw [if_neg hd]
    rcases hg : dictGet d k' with _ | w
    · have hk' : ¬ ((k == k') = true) := by simpa using fun hh => h hh.symm
      rw [dictGet_append_of_none _ hg, dictGet_cons, if_neg hk']
      rfl
    · rw [dictGet_append_of_some _ hg]

theorem dictGet_dictExtend {α : Type} (d : Dict (List α)) (k k' : String) (vs : List α) :
    dictGet (dictExtend d k vs) k' =
      if k' = k then some (((dictGet d k).getD []) ++ vs) else dictGet d k' := by
  unfold dictExtend
  rcases hg : dictGet d k with _ | old
  · by_cases hk : k' = k
    · subst hk
      rw [dictGet_append_of_none _ hg, hg]
      simp only [Option.getD_none, List.nil_append, if_true]
      rw [dictGet_cons, if_pos (by simp)]
    · rcases hg' : dictGet d k' with _ | w
      · have hk' : ¬ ((k == k') = true) := by simpa using fun hh => hk hh.symm
        rw [dictGet_append_of_none _ hg', if_neg hk, dictGet_cons, if_neg hk']
        rfl
      · rw [dictGet_append_of_some _ hg', if_neg hk]
  · by_cases hk : k' = k
    · subst hk
      rw [dictGet_dictSet_self, hg]
      simp
    · rw [dictGet_dictSet_other d k k' _ hk, if_neg hk]

theorem keys_map_set {α : Type} (d : Dict α) (k : String) (v : α) :
    (d.map (fun p => if p.1 == k then (k, v) else p)).map Prod.fst = d.map Prod.fst := by
  induction d with
  | nil => rfl
  | cons p d ih =>
    simp only [List.map_cons, ih, List.cons.injEq, and_true]
    by_cases hp : (p.1 == k) = true
    · have hp1 : p.1 = k := by simpa using hp
      rw [if_pos hp]
      exact hp1.symm
    · rw [if_neg hp]

theorem dictSet_keys {α : Type} (d : Dict α) (k : String) (v : α) :
    (dictSet d k v).map Prod.fst =
      if d.any (fun p => p.1 == k) then d.map Prod.fst
      else d.map Prod.fst ++ [k] := by
  unfold dictSet
  by_cases h : (d.any (fun p => p.1 == k)) = true
  · rw [if_pos h, if_pos h]
    exact keys_map_set d k v
  · rw [if_neg h, if_neg h]
    simp

/-! ## Concrete fixtures

Scanner classes exactly as registered from `scanner/aws/services/`. -/

/-- `Ec2Scanner` from `services/ec2.py`. -/
def ec2Class : ScannerClass :=
  { className := "Ec2Scanner", argument_name := "ec2", label := "EC2 Instances",
    subclassOfRegistry := true }

/-- `IAMRoleScanner` from `services/iam_roles.py`. -/
def iamRolesClass : ScannerClass :=
  { className := "IAMRoleScanner", argument_name := "iam-roles", label := "IAM Roles",
    subclassOfRegistry := true }

/-- `EipScanner` from `services/eip.py`. -/
def eipClass : ScannerClass :=
  { className := "EipScanner", argument_name := "elastic-ips", label := "Elastic IPs",
    subclassOfRegistry := true }

/-- A registry holding the EC2 and IAM-roles scanners. -/
def regDemo : Registry := [("ec2", ec2Class), ("iam-roles", iamRolesClass)]

/-! ## C1 -/

/-- C1: the claim says `AWSAccountScanner.scan_resources` accepts an account
name argument and that each per-account record contains the account name.
In the code, `scan_resources` takes only `(session, account_id, regions,
scanners)` while `Executor._scan_region_scanner` passes five positional
arguments including `account_name`; the call therefore raises `TypeError`,
`_scan_region_scanner` returns `None` for every task, and the record keys
built at account_scanner.py lines 75-79 do not include an account name. -/
theorem C1_scan_call_aborts :
    pythonCallBinds scanResourcesParams.length executorScanResourcesArgCount = false ∧
    (∀ (env : ScanEnv) (account_id : String) (account_name : Option String)
      (region scanner_name : String),
      scan_region_scanner env account_id account_name region scanner_name = none) ∧
    "account_name" ∉ scanRecordKeys := by
  refine ⟨rfl, ?_, by decide⟩
  intro env account_id account_name region scanner_name
  rfl

/-! ## C5 -/

/-- C5: `ResourceScannerRegistry.get_scanner` resolves an identifier by
argument-name (alias) first, then by label, then by class name
case-insensitively — returning the first registered scanner that matches —
and raises exactly when no registered scanner matches any of the three
keys. -/
theorem C5_get_scanner_resolution (r : Registry) (identifier : String) :
    (∀ c, dictGet r identifier = some c → get_scanner r identifier = .ok c) ∧
    (dictGet r identifier = none →
      ∀ p, r.find? (fun q => q.2.label == identifier) = some p →
        get_scanner r identifier = .ok p.2) ∧
    (dictGet r identifier = none →
      r.find? (fun q => q.2.label == identifier) = none →
      ∀ p, r.find? (fun q => lowerStr q.2.className == lowerStr identifier) = some p →
        get_scanner r identifier = .ok p.2) ∧
    ((∃ e, get_scanner r identifier = .error e) ↔
      (dictGet r identifier = none ∧
       r.find? (fun q => q.2.label == identifier) = none ∧
       r.find? (fun q => lowerStr q.2.className == lowerStr identifier) = none)) := by
  refine ⟨?_, ?_, ?_, ?_⟩
  · intro c hc
    simp [get_scanner, hc]
  · intro h0 p hp
    simp [get_scanner, h0, hp]
  · intro h0 h1 p hp
    simp [get_scanner, h0, h1, hp]
  · constructor
    · rintro ⟨e, he⟩
      unfold get_scanner at he
      split at he
      · simp at he
      · split at he
        · simp at he
        · split at he
          · simp at he
          · exact ⟨by assumption, by assumption, by assumption⟩
    · rintro ⟨h0, h1, h2⟩
      refine ⟨"Scanner with identifier " ++ identifier ++
        " not found (by class name, argument_name, or label).", ?_⟩
      unfold get_scanner
      rw [h0, h1, h2]

/-- Witness for C5: in `regDemo`, `"EC2 Instances"` is not an alias, so it
resolves through the label fallback to the EC2 scanner; in an empty registry
`"bogus"` matches no key and raises. -/
theorem C5_get_scanner_resolution_witness :
    get_scanner regDemo "EC2 Instances" = .ok ec2Class ∧
    (∃ e, get_scanner ([] : Registry) "bogus" = .error e) := by
  constructor
  · exact (C5_get_scanner_resolution regDemo "EC2 Instances").2.1 (by rfl) ⟨"ec2", ec2Class⟩ (by rfl)
  · exact (C5_get_scanner_resolution ([] : Registry) "bogus").2.2.2.mpr ⟨rfl, rfl, rfl⟩

/-! ## C6 -/

/-- A class that is not a `ResourceScannerRegistry` subclass. -/
def notAScannerClass : ScannerClass :=
  { className := "NotAScanner", argument_name := "x", label := "X",
    subclassOfRegistry := false }

/-- A second EC2 scanner class with the same `argument_name` as
`ec2Class`. -/
def ec2ClassV2 : ScannerClass :=
  { className := "Ec2ScannerV2", argument_name := "ec2", label := "EC2 Instances v2",
    subclassOfRegistry := true }

/-- Counterexample for C6: the claim says registration fails when attempted
after the registry has been sealed post-startup, and that each alias is
registered exactly once.  The code has no sealing mechanism: with `regDemo`
already populated (startup registration done), registering a further valid
scanner still succeeds, and registering a second scanner under the
already-taken alias `"ec2"` also succeeds, silently replacing the first. -/
theorem C6_registration_counterexample :
    add_scanner regDemo eipClass = .ok (regDemo ++ [("elastic-ips", eipClass)]) ∧
    add_scanner regDemo ec2ClassV2 = .ok [("ec2", ec2ClassV2), ("iam-roles", iamRolesClass)] := by
  constructor <;> rfl

/-- C6 (amended): `ResourceScannerRegistry.add_scanner` raises exactly when
the registered class is not a `ResourceScannerRegistry` subclass; there is
no sealing check, a successful registration stores the class under its
`argument_name`, re-registering an existing alias replaces the previous
entry in place, and alias keys remain unique (no duplicate keys are ever
introduced). -/
theorem C6_add_scanner (r : Registry) (c : ScannerClass) :
    ((∃ e, add_scanner r c = .error e) ↔ c.subclassOfRegistry = false) ∧
    (∀ r', add_scanner r c = .ok r' →
      dictGet r' c.argument_name = some c ∧
      (∀ k, k ≠ c.argument_name → dictGet r' k = dictGet r k) ∧
      ((r.map Prod.fst).Nodup → (r'.map Prod.fst).Nodup)) := by
  constructor
  · constructor
    · rintro ⟨e, he⟩
      unfold add_scanner at he
      by_cases hc : c.subclassOfRegistry
      · rw [if_neg (by simp [hc])] at he
        simp at he
      · simpa using hc
    · intro hc
      exact ⟨_, by unfold add_scanner; rw [if_pos (by simp [hc])]⟩
  · intro r' hr'
    unfold add_scanner at hr'
    by_cases hc : c.subclassOfRegistry
    · rw [if_neg (by simp [hc])] at hr'
      have hr'' : r' = dictSet r c.argument_name c := by
        cases hr'
        rfl
      subst hr''
      refine ⟨dictGet_dictSet_self r c.argument_name c, ?_, ?_⟩
      · intro k hk
        exact dictGet_dictSet_other r c.argument_name k c hk
      · intro hnd
        rw [dictSet_keys]
        by_cases hin : (r.any (fun p => p.1 == c.argument_name)) = true
        · rw [if_pos hin]
          exact hnd
        · rw [if_neg hin]
          have hnotin : ∀ x : ScannerClass, (c.argument_name, x) ∉ r := by
            intro x hx
            exact hin (List.any_eq_true.mpr ⟨(c.argument_name, x), hx, by simp⟩)
          simpa [List.nodup_append] using ⟨hnd, hnotin⟩
    · rw [if_pos (by simp [hc])] at hr'
      simp at hr'

/-- Witness for C6 (amended): registering the EIP scanner into `regDemo`
succeeds and stores it under `"elastic-ips"`, leaving `"ec2"` untouched and
keys unique; a non-subclass is rejected. -/
theorem C6_add_scanner_witness :
    dictGet (regDemo ++ [("elastic-ips", eipClass)]) "elastic-ips" = some eipClass ∧
    dictGet (regDemo ++ [("elastic-ips", eipClass)]) "ec2" = dictGet regDemo "ec2" ∧
    (∃ e, add_scanner regDemo notAScannerClass = .error e) := by
  refine ⟨?_, ?_, ?_⟩
  · exact ((C6_add_scanner regDemo eipClass).2 _ (by rfl)).1
  · exact ((C6_add_scanner regDemo eipClass).2 _ (by rfl)).2.1 "ec2" (by decide)
  · exact (C6_add_scanner regDemo notAScannerClass).1.mpr rfl

/-! ## Lemmas about `scan_resources` -/

/-- The region fold of `scan_resources`: a region key maps to its
`scanRegion` result exactly when it was requested and its region switch
succeeded; otherwise the accumulator's binding is preserved. -/
theorem scanFold_lookup (env : ScanEnv) (scanners : List String)
    (regions : List String) (acc : Dict RegionResults) (r : String) :
    dictGet (regions.foldl (fun acc region =>
      if env.switchRegionOk region then
        dictSet acc region (scanRegion env region scanners)
      else acc) acc) r =
      if r ∈ regions ∧ env.switchRegionOk r = true
      then some (scanRegion env r scanners) else dictGet acc r := by
  induction regions generalizing acc with
  | nil => simp
  | cons reg rest ih =>
    simp only [List.foldl_cons]
    rw [ih]
    by_cases hrest : r ∈ rest ∧ env.switchRegionOk r = true
    · rw [if_pos hrest, if_pos ⟨List.mem_cons_of_mem _ hrest.1, hrest.2⟩]
    · rw [if_neg hrest]
      by_cases hreg : reg = r
      · subst hreg
        by_cases hok : env.switchRegionOk reg = true
        · rw [if_pos hok, if_pos ⟨List.mem_cons_self _ _, hok⟩, dictGet_dictSet_self]
        · rw [if_neg hok, if_neg (fun h => hok h.2)]
      · have hcond : ¬ (r ∈ reg :: rest ∧ env.switchRegionOk r = true) := by
          rintro ⟨hmem, hok'⟩
          rcases List.mem_cons.mp hmem with h | h
          · exact hreg h.symm
          · exact hrest ⟨h, hok'⟩
        rw [if_neg hcond]
        by_cases hok : env.switchRegionOk reg = true
        · rw [if_pos hok, dictGet_dictSet_other _ _ _ _ (fun h => hreg h.symm)]
        · rw [if_neg hok]

/-- The `scan_results` map of a `scan_resources` record, characterised per
region key. -/
theorem scan_results_lookup (env : ScanEnv) (account_id : String)
    (regions scanners : List String) (r : String) :
    dictGet (scan_resources env account_id regions scanners).scan_results r =
      if r ∈ regions ∧ env.switchRegionOk r = true
      then some (scanRegion env r scanners) else none := by
  show dictGet (regions.foldl _ []) r = _
  rw [scanFold_lookup]
  by_cases h : r ∈ regions ∧ env.switchRegionOk r = true
  · rw [if_pos h, if_pos h]
  · rw [if_neg h, if_neg h]
    rfl

/-- A scanner whose plugin raises in a region leaves no cell under its label
in that region's results. -/
theorem scanStep_lookup_none (env : ScanEnv) (region l0 : String)
    (hfail : env.plugin l0 region = none) (acc : RegionResults) (label : String)
    (h : dictGet acc l0 = none) :
    dictGet (scanStep env region acc label) l0 = none := by
  unfold scanStep
  split
  · exact h
  · split
    · exact h
    · next res hres =>
      rw [dictGet_dictExtend, if_neg ?_]
      · exact h
      · intro hl
        subst hl
        rw [hfail] at hres
        cases hres

theorem scanRegion_lookup_none (env : ScanEnv) (region l0 : String)
    (hfail : env.plugin l0 region = none) (scanners : List String) :
    dictGet (scanRegion env region scanners) l0 = none := by
  unfold scanRegion
  have main : ∀ (ss : List String) (acc : RegionResults), dictGet acc l0 = none →
      dictGet (ss.foldl (scanStep env region) acc) l0 = none := by
    intro ss
    induction ss with
    | nil => intro acc h; exact h
    | cons label rest ih =>
      intro acc h
      simp only [List.foldl_cons]
      exact ih _ (scanStep_lookup_none env region l0 hfail acc label h)
  exact main scanners [] rfl

/-- Two environments with the same registry and the same plugin outcomes in
one region produce the same `scanRegion` result there. -/
theorem scanRegion_congr (env env' : ScanEnv) (region : String)
    (scanners : List String)
    (hreg : env'.registry = env.registry)
    (hpl : ∀ l, env'.plugin l region = env.plugin l region) :
    scanRegion env' region scanners = scanRegion env region scanners := by
  unfold scanRegion
  have hstep : scanStep env' region = scanStep env region := by
    funext acc label
    unfold scanStep
    rw [hreg, hpl]
  rw [hstep]

/-- A scan step at one label does not affect any other label's cell. -/
theorem scanStep_lookup_preserve (env : ScanEnv) (region : String)
    (acc : RegionResults) (label l : String) (hl : l ≠ label) :
    dictGet (scanStep env region acc label) l = dictGet acc l := by
  unfold scanStep
  split
  · rfl
  · split
    · rfl
    · rw [dictGet_dictExtend, if_neg hl]

/-- Changing the plugin outcome of a single scanner label in a region does
not affect any other label's cell of that region's results. -/
theorem scanRegion_lookup_other (env env' : ScanEnv) (region l0 : String)
    (scanners : List String)
    (hreg : env'.registry = env.registry)
    (hpl : ∀ l', l' ≠ l0 → env'.plugin l' region = env.plugin l' region) :
    ∀ l, l ≠ l0 →
      dictGet (scanRegion env' region scanners) l
        = dictGet (scanRegion env region scanners) l := by
  unfold scanRegion
  have main : ∀ (ss : List String) (acc acc' : RegionResults),
      (∀ l', l' ≠ l0 → dictGet acc l' = dictGet acc' l') →
      ∀ l, l ≠ l0 →
        dictGet (ss.foldl (scanStep env' region) acc) l
          = dictGet (ss.foldl (scanStep env region) acc') l := by
    intro ss
    induction ss with
    | nil => intro acc acc' hinv l hl; exact hinv l hl
    | cons label rest ih =>
      intro acc acc' hinv l hl
      simp only [List.foldl_cons]
      apply ih
      · intro l' hl'
        by_cases hlab : label = l0
        · subst hlab
          rw [scanStep_lookup_preserve env' region acc label l' hl',
            scanStep_lookup_preserve env region acc' label l' hl']
          exact hinv l' hl'
        · unfold scanStep
          rw [hreg, hpl label hlab]
          split
          · exact hinv l' hl'
          · split
            · exact hinv l' hl'
            · rw [dictGet_dictExtend, dictGet_dictExtend]
              by_cases hll : l' = label
              · rw [if_pos hll, if_pos hll, hinv label hlab]
              · rw [if_neg hll, if_neg hll]
                exact hinv l' hl'
      · exact hl
  exact main scanners [] [] (fun _ _ => rfl)

/-! ## Lemmas about the session fan-out and `execute` -/

/-- With the organization session cached or an organization role configured,
the session fan-out succeeds and returns exactly the sessions of the active
accounts whose role assumption succeeded. -/
theorem assume_destination_ok (organization_role : Option String) (cached : Bool)
    (raw : List OrgAccount) (outcome : OrgAccount → Option Session)
    (h : cached = true ∨ organization_role.isSome) :
    assume_destination_role_in_all_accounts organization_role cached raw outcome =
      .ok ((raw.filter (fun a => a.Status == "ACTIVE")).filterMap outcome) := by
  unfold assume_destination_role_in_all_accounts get_organization_accounts
  have hcond : (!cached && organization_role.isNone) = false := by
    rcases h with h | h
    · rw [h]
      rfl
    · rcases organization_role with _ | v
      · simp at h
      · simp
  rw [hcond]
  rfl

/-- With the organization configured, `execute` never raises. -/
theorem execute_ok (cfg : ExecCfg)
    (h : cfg.orgSessionCached = true ∨ cfg.organization_role.isSome) :
    ∃ out, execute cfg = .ok out := by
  unfold execute
  rw [assume_destination_ok _ _ _ _ h]
  exact ⟨_, rfl⟩

/-! ## C10 -/

/-- C10: the `regions` field of the record returned by
`AWSAccountScanner.scan_resources` is the requested regions list verbatim;
a region whose region-switch failed still appears in it even though no
entry for that region exists in `scan_results` (the field does not
distinguish attempted from skipped regions). -/
theorem C10_regions_verbatim (env : ScanEnv) (account_id : String)
    (regions scanners : List String) :
    (scan_resources env account_id regions scanners).regions = regions ∧
    (∀ r ∈ regions, env.switchRegionOk r = false →
      r ∈ (scan_resources env account_id regions scanners).regions ∧
      dictGet (scan_resources env account_id regions scanners).scan_results r = none) := by
  refine ⟨rfl, ?_⟩
  intro r hr hfailed
  refine ⟨hr, ?_⟩
  rw [scan_results_lookup, if_neg ?_]
  rintro ⟨_, hok⟩
  rw [hfailed] at hok
  cases hok

/-- A scan environment in which switching into `"eu-west-1"` raises and
every plugin returns no findings. -/
def envC10 : ScanEnv :=
  { registry := regDemo, switchRegionOk := fun r => r != "eu-west-1",
    plugin := fun _ _ => some [] }

/-- Witness for C10: with the switch into `"eu-west-1"` failing, the record
still lists `"eu-west-1"` in `regions`, and `scan_results` has no entry for
it. -/
theorem C10_regions_verbatim_witness :
    (scan_resources envC10 "111111111111" ["us-east-1", "eu-west-1"] ["ec2"]).regions
      = ["us-east-1", "eu-west-1"] ∧
    "eu-west-1" ∈ (scan_resources envC10 "111111111111" ["us-east-1", "eu-west-1"] ["ec2"]).regions ∧
    dictGet (scan_resources envC10 "111111111111" ["us-east-1", "eu-west-1"] ["ec2"]).scan_results
      "eu-west-1" = none := by
  have h := C10_regions_verbatim envC10 "111111111111" ["us-east-1", "eu-west-1"] ["ec2"]
  have h2 := h.2 "eu-west-1" (by simp) (by rfl)
  exact ⟨h.1, h2.1, h2.2⟩

/-! ## C3 -/

/-- A scan environment where every switch succeeds and every plugin finds
one resource. -/
def envBase : ScanEnv :=
  { registry := regDemo, switchRegionOk := fun _ => true,
    plugin := fun _ _ => some ["finding"] }

/-- `envBase` with the EC2 plugin raising in `us-east-1`. -/
def envC3 : ScanEnv :=
  { registry := regDemo, switchRegionOk := fun _ => true,
    plugin := fun l r => if l == "ec2" && r == "us-east-1" then none else some ["finding"] }

/-- Counterexample for C3: the claim says an exception from a scanner plugin
leaves the affected (region, scanner) cell present-but-empty.  With the EC2
plugin raising in `us-east-1`, the region's entry in `scan_results` is the
empty map: there is no `"ec2"` cell at all (the claim requires
`some []` at that cell; the lookup yields `none`). -/
theorem C3_cell_absent_counterexample :
    dictGet (scan_resources envC3 "111111111111" ["us-east-1"] ["ec2"]).scan_results "us-east-1"
      = some ([] : RegionResults) ∧
    dictGet ([] : RegionResults) "ec2" = none := by
  exact ⟨rfl, rfl⟩

/-- C3 (amended): an exception raised by a single scanner plugin, or by
region-context derivation, is caught inside
`AWSAccountScanner.scan_resources` and isolated — but the affected cell is
*omitted* from the aggregate rather than recorded as present-but-empty.
Precisely: if `env'` differs from `env` only in that the plugin for label
`l0` raises in region `r0`, then (1) the `(r0, l0)` cell is absent from
`r0`'s results, (2) every other region's results are exactly those of the
run without the failure, (3) within `r0` every other scanner's cell is
exactly as without the failure, and (4) with the organization configured no
exception escapes `Executor.execute`. -/
theorem C3_failure_isolation (env env' : ScanEnv) (l0 r0 : String)
    (account_id : String) (regions scanners : List String)
    (hreg : env'.registry = env.registry)
    (hsw : env'.switchRegionOk = env.switchRegionOk)
    (hpl : ∀ l r, ¬(l = l0 ∧ r = r0) → env'.plugin l r = env.plugin l r)
    (hfail : env'.plugin l0 r0 = none) :
    (∀ rm, dictGet (scan_resources env' account_id regions scanners).scan_results r0 = some rm →
      dictGet rm l0 = none) ∧
    (∀ r, r ≠ r0 →
      dictGet (scan_resources env' account_id regions scanners).scan_results r =
        dictGet (scan_resources env account_id regions scanners).scan_results r) ∧
    (∀ l, l ≠ l0 → ∀ rm rm',
      dictGet (scan_resources env' account_id regions scanners).scan_results r0 = some rm →
      dictGet (scan_resources env account_id regions scanners).scan_results r0 = some rm' →
      dictGet rm l = dictGet rm' l) ∧
    (∀ cfg : ExecCfg, cfg.orgSessionCached = true ∨ cfg.organization_role.isSome →
      ∃ out, execute cfg = .ok out) := by
  refine ⟨?_, ?_, ?_, ?_⟩
  · intro rm hrm
    rw [scan_results_lookup] at hrm
    by_cases h : r0 ∈ regions ∧ env'.switchRegionOk r0 = true
    · rw [if_pos h] at hrm
      cases hrm
      exact scanRegion_lookup_none env' r0 l0 hfail scanners
    · rw [if_neg h] at hrm
      cases hrm
  · intro r hr
    rw [scan_results_lookup, scan_results_lookup, hsw]
    rw [scanRegion_congr env env' r scanners hreg (fun l => hpl l r (fun hh => hr hh.2))]
  · intro l hl rm rm' hrm hrm'
    rw [scan_results_lookup] at hrm hrm'
    by_cases h : r0 ∈ regions ∧ env'.switchRegionOk r0 = true
    · rw [if_pos h] at hrm
      have h2 : r0 ∈ regions ∧ env.switchRegionOk r0 = true := ⟨h.1, by rw [← hsw]; exact h.2⟩
      rw [if_pos h2] at hrm'
      cases hrm
      cases hrm'
      exact scanRegion_lookup_other env env' r0 l0 scanners hreg
        (fun l' hl' => hpl l' r0 (fun hh => hl' hh.1)) l hl
    · rw [if_neg h] at hrm
      cases hrm
  · intro cfg hcfg
    exact execute_ok cfg hcfg

/-- Witness for C3 (amended): with the EC2 plugin raising in `us-east-1`,
the `"ec2"` cell is absent from the attempted region's (empty) map and the
untouched region `eu-west-1` carries exactly the results of the failure-free
run. -/
theorem C3_failure_isolation_witness :
    dictGet ([] : RegionResults) "ec2" = none ∧
    dictGet (scan_resources envC3 "111111111111" ["us-east-1", "eu-west-1"] ["ec2"]).scan_results
        "eu-west-1"
      = dictGet (scan_resources envBase "111111111111" ["us-east-1", "eu-west-1"] ["ec2"]).scan_results
        "eu-west-1" := by
  have hpl : ∀ l r, ¬(l = "ec2" ∧ r = "us-east-1") → envC3.plugin l r = envBase.plugin l r := by
    intro l r h
    show (if l == "ec2" && r == "us-east-1" then none else some ["finding"]) = some ["finding"]
    rw [if_neg ?_]
    intro hc
    simp only [Bool.and_eq_true, beq_iff_eq] at hc
    exact h hc
  have h := C3_failure_isolation envBase envC3 "ec2" "us-east-1" "111111111111"
    ["us-east-1", "eu-west-1"] ["ec2"] rfl rfl hpl rfl
  exact ⟨h.1 [] (by rfl), h.2.1 "eu-west-1" (by decide)⟩

/-! ## Lemmas about `collect` and the metrics -/

/-- The collection loop, characterised: the results list is the sequence of
non-`None` records and `total_scans` counts them. -/
theorem collect_fold (l : List (Option ScanRecord)) (acc : List ScanRecord) (n : Nat) :
    l.foldl (fun acc fr => match fr with
      | some rec => (acc.1 ++ [rec], acc.2 + 1)
      | none => acc) (acc, n)
      = (acc ++ l.reduceOption, n + l.countP Option.isSome) := by
  induction l generalizing acc n with
  | nil => simp
  | cons fr rest ih =>
    cases fr with
    | none =>
      simp only [List.foldl_cons]
      rw [ih]
      simp [List.reduceOption]
    | some rec =>
      simp only [List.foldl_cons]
      rw [ih]
      simp [List.reduceOption]
      omega

/-- `collect` returns the non-`None` records in order, paired with their
count. -/
theorem collect_spec (l : List (Option ScanRecord)) :
    collect l = (l.reduceOption, l.countP Option.isSome) := by
  unfold collect
  rw [collect_fold]
  simp

/-- Round-half-to-even moves a rational by at most `1/2`. -/
theorem roundHalfEven_dist (q : ℚ) : |(roundHalfEven q : ℚ) - q| ≤ 1 / 2 := by
  unfold roundHalfEven
  have h0 : (⌊q⌋ : ℚ) ≤ q := Int.floor_le q
  have h1 : q < ⌊q⌋ + 1 := Int.lt_floor_add_one q
  by_cases ha : q - ⌊q⌋ < 1/2
  · rw [if_pos ha, abs_le]
    constructor <;> linarith
  · rw [if_neg ha]
    by_cases hb : q - ⌊q⌋ > 1/2
    · rw [if_pos hb]
      push_cast
      rw [abs_le]
      constructor <;> linarith
    · rw [if_neg hb]
      by_cases hc : ⌊q⌋ % 2 = 0
      · rw [if_pos hc, abs_le]
        constructor <;> linarith
      · rw [if_neg hc]
        push_cast
        rw [abs_le]
        constructor <;> linarith

/-- Python's `round(x, 2)` moves a rational by at most `1/200`. -/
theorem pyRound2_dist (q : ℚ) : |pyRound2 q - q| ≤ 1 / 200 := by
  unfold pyRound2
  have h := roundHalfEven_dist (q * 100)
  have heq : (roundHalfEven (q * 100) : ℚ) / 100 - q
      = ((roundHalfEven (q * 100) : ℚ) - q * 100) / 100 := by ring
  rw [heq, abs_div]
  rw [show |(100 : ℚ)| = 100 by norm_num]
  rw [div_le_div_iff (by norm_num) (by norm_num)]
  linarith

/-- `round(0, 2) = 0`. -/
theorem pyRound2_zero : pyRound2 0 = 0 := by
  unfold pyRound2 roundHalfEven
  norm_num

/-! ## C4 -/

/-- A minimal scan record. -/
def recDemo : ScanRecord :=
  { account_id := "111111111111", regions := ["us-east-1"], scan_results := [] }

/-- Counterexample for C4: the claim says `metrics.avg_scans_per_second`
equals `total_scans / elapsed` when `elapsed > 0`.  The code stores
`round(avg, 2)` (executor.py line 95): with one counted scan over 3 seconds
the stored value is `0.33`, not `1/3`. -/
theorem C4_avg_rounding_counterexample :
    (0 : ℚ) < 3 - 0 ∧
    (mkMetrics (collect [some recDemo]).2 0 3).total_scans = 1 ∧
    (mkMetrics (collect [some recDemo]).2 0 3).avg_scans_per_second
      ≠ ((mkMetrics (collect [some recDemo]).2 0 3).total_scans : ℚ) / (3 - 0) := by
  refine ⟨by norm_num, rfl, ?_⟩
  simp only [mkMetrics, collect_spec]
  norm_num [pyRound2, roundHalfEven]

/-- C4 (amended): `metrics.total_scans` equals the number of dispatched
tasks that returned a non-aborted (non-`None`) result, and
`metrics.avg_scans_per_second` equals `total_scans / elapsed` **rounded to
two decimals** when the elapsed time is positive (hence within `1/200` of
the exact quotient), else `0`. -/
theorem C4_metrics (futureResults : List (Option ScanRecord)) (startTime endTime : ℚ) :
    (collect futureResults).2 = futureResults.countP Option.isSome ∧
    (mkMetrics (collect futureResults).2 startTime endTime).total_scans
      = futureResults.countP Option.isSome ∧
    (endTime - startTime ≤ 0 →
      (mkMetrics (collect futureResults).2 startTime endTime).avg_scans_per_second = 0) ∧
    (0 < endTime - startTime →
      (mkMetrics (collect futureResults).2 startTime endTime).avg_scans_per_second
        = pyRound2 ((futureResults.countP Option.isSome : ℚ) / (endTime - startTime)) ∧
      |(mkMetrics (collect futureResults).2 startTime endTime).avg_scans_per_second
        - (futureResults.countP Option.isSome : ℚ) / (endTime - startTime)| ≤ 1 / 200) ∧
    (∀ cfg : ExecCfg, ∀ res m, execute cfg = .ok (res, m) →
      m.total_scans = ((executeTasks cfg).map (fun t =>
        scan_region_scanner cfg.env t.account_id t.account_name t.region t.scanner_name)).countP
          Option.isSome) := by
  have hc : (collect futureResults).2 = futureResults.countP Option.isSome := by
    rw [collect_spec]
  refine ⟨hc, by simpa [mkMetrics] using hc, ?_, ?_, ?_⟩
  · intro h
    have : ¬ (0 < endTime - startTime) := not_lt.mpr h
    simp only [mkMetrics, if_neg this]
    exact pyRound2_zero
  · intro h
    constructor
    · simp only [mkMetrics, if_pos h, hc]
    · simp only [mkMetrics, if_pos h, hc]
      exact pyRound2_dist _
  · intro cfg res m hex
    unfold execute at hex
    unfold executeTasks
    rcases hses : assume_destination_role_in_all_accounts cfg.organization_role
        cfg.orgSessionCached cfg.rawAccounts cfg.outcome with e | sessions
    · rw [hses] at hex
      cases hex
    · rw [hses] at hex
      simp only [Except.ok.injEq, Prod.mk.injEq] at hex
      rw [← hex.2, collect_spec]
      simp [mkMetrics]

/-- Organization account fixtures. -/
def orgA : OrgAccount := { Id := "111111111111", Name := "prod", Status := "ACTIVE" }

/-- Second organization account fixture. -/
def orgB : OrgAccount := { Id := "222222222222", Name := "dev", Status := "ACTIVE" }

/-- The runner session obtained for `orgA`. -/
def sessionDemoA : Session :=
  { account_id := "111111111111", regions := ["us-east-1", "eu-west-1"] }

/-- The runner session obtained for `orgB`. -/
def sessionDemoB : Session :=
  { account_id := "222222222222", regions := ["us-east-1", "eu-west-1"] }

/-- A fully configured two-account run: two regions, one region-scoped
scanner (`ec2`) and one account-scoped scanner (`iam-roles`). -/
def cfgDemo : ExecCfg :=
  { organization_role := some "OrgQueryRole", orgSessionCached := true,
    rawAccounts := [orgA, orgB],
    outcome := fun a =>
      if a.Id == "111111111111" then some sessionDemoA
      else if a.Id == "222222222222" then some sessionDemoB else none,
    accounts := [{ Id := "111111111111", Name := "prod" },
                 { Id := "222222222222", Name := "dev" }],
    regionsArg := .explicit ["us-east-1", "eu-west-1"],
    scanners := ["ec2", "iam-roles"],
    env := envBase,
    startTime := 0, endTime := 3 }

/-- Witness for C4 (amended), at one counted scan over 3 seconds and at the
concrete two-account run `cfgDemo`. -/
theorem C4_metrics_witness :
    (0 : ℚ) < 3 - 0 ∧
    (mkMetrics (collect [some recDemo]).2 0 3).avg_scans_per_second
      = pyRound2 (([some recDemo].countP Option.isSome : ℚ) / (3 - 0)) ∧
    (mkMetrics (collect ((executeTasks cfgDemo).map (fun t =>
        scan_region_scanner cfgDemo.env t.account_id t.account_name t.region t.scanner_name))).2
        0 3).total_scans
      = ((executeTasks cfgDemo).map (fun t =>
          scan_region_scanner cfgDemo.env t.account_id t.account_name t.region
            t.scanner_name)).countP Option.isSome := by
  refine ⟨by norm_num, ?_, ?_⟩
  · exact ((C4_metrics [some recDemo] 0 3).2.2.2.1 (by norm_num)).1
  · refine (C4_metrics [] 0 3).2.2.2.2 cfgDemo [] _ ?_
    unfold execute
    rw [assume_destination_ok cfgDemo.organization_role cfgDemo.orgSessionCached
      cfgDemo.rawAccounts cfgDemo.outcome (Or.inl rfl)]
    rfl

/-! ## C2 — task-matrix construction -/

/-- Length of one session's task list: one task per non-IAM scanner and
resolved region, plus one `"Global"` task per IAM-class scanner. -/
theorem tasksForSession_length (accounts : List Account) (regionsArg : RegionsArg)
    (scanners : List String) (s : Session)
    (hkeep : keepSession accounts s.account_id = true) :
    (tasksForSession accounts regionsArg scanners s).length =
      (get_regions_for_session regionsArg s).length *
        (scanners.filter (fun sc => !accountScoped sc)).length +
      (scanners.filter (fun sc => accountScoped sc)).length := by
  unfold tasksForSession
  rw [if_pos hkeep]
  induction scanners with
  | nil => simp
  | cons sc rest ih =>
    rw [List.flatMap_cons, List.length_append, ih]
    by_cases h : accountScoped sc = true
    · have hf1 : List.filter (fun x => !accountScoped x) (sc :: rest)
          = List.filter (fun x => !accountScoped x) rest := by
        simp [List.filter_cons, h]
      have hf2 : List.filter (fun x => accountScoped x) (sc :: rest)
          = sc :: List.filter (fun x => accountScoped x) rest := by
        simp [List.filter_cons, h]
      rw [if_pos h, hf1, hf2]
      simp only [List.length_cons, List.length_singleton, List.length_nil]
      ring
    · have h' : accountScoped sc = false := by
        revert h
        cases accountScoped sc <;> simp
      have hf1 : List.filter (fun x => !accountScoped x) (sc :: rest)
          = sc :: List.filter (fun x => !accountScoped x) rest := by
        simp [List.filter_cons, h']
      have hf2 : List.filter (fun x => accountScoped x) (sc :: rest)
          = List.filter (fun x => accountScoped x) rest := by
        simp [List.filter_cons, h']
      rw [if_neg h, hf1, hf2, List.length_map, List.length_cons]
      ring

/-- Every task produced by one scanner occurrence carries that scanner's
name. -/
theorem taskBranch_scanner_name (s : Session) (aname : Option String)
    (regions : List String) (sc : String) (t : Task)
    (ht : t ∈ (if accountScoped sc then
        [{ account_id := s.account_id, account_name := aname,
           region := "Global", scanner_name := sc : Task }]
      else regions.map (fun r =>
        { account_id := s.account_id, account_name := aname,
          region := r, scanner_name := sc }))) :
    t.scanner_name = sc := by
  by_cases h : accountScoped sc = true
  · rw [if_pos h] at ht
    simp at ht
    rw [ht]
  · rw [if_neg h] at ht
    rw [List.mem_map] at ht
    obtain ⟨r, _, ht⟩ := ht
    rw [← ht]

/-- Filtering a scanner-keyed flat-map by one scanner name counts that
scanner's occurrences. -/
theorem flatMap_filter_scanner_length (scanners : List String)
    (f : String → List Task) (sc : String)
    (hf : ∀ sc' t, t ∈ f sc' → t.scanner_name = sc') :
    ((scanners.flatMap f).filter (fun t => t.scanner_name == sc)).length
      = scanners.count sc * (f sc).length := by
  induction scanners with
  | nil => simp
  | cons sc' rest ih =>
    simp only [List.flatMap_cons, List.filter_append, List.length_append, ih]
    by_cases h : sc' = sc
    · subst h
      have hself : (f sc').filter (fun t => t.scanner_name == sc') = f sc' := by
        rw [List.filter_eq_self]
        intro t ht
        simp [hf sc' t ht]
      rw [hself, List.count_cons_self]
      ring
    · have hnil : (f sc').filter (fun t => t.scanner_name == sc) = [] := by
        rw [List.filter_eq_nil_iff]
        intro t ht
        simp [hf sc' t ht]
        exact h
      rw [hnil, List.count_cons_of_ne (fun hh => h hh.symm)]
      simp

/-- C2: task construction in `Executor.execute` submits exactly one
`"Global"` task per kept session for each scanner whose name starts with
`"iam"` (regardless of the resolved region count), exactly one task per
(session, resolved region) pair for every other scanner, and hence, for `A`
kept sessions each resolving `R` regions, `S` region-scoped scanners and `G`
IAM-class scanners, `A*R*S + A*G` tasks in total. -/
theorem C2_task_matrix_counts (accounts : List Account) (regionsArg : RegionsArg)
    (scanners : List String) (sessions : List Session) (R : Nat)
    (hkeep : ∀ s ∈ sessions, keepSession accounts s.account_id = true)
    (hreg : ∀ s ∈ sessions, (get_regions_for_session regionsArg s).length = R) :
    (buildTasks accounts regionsArg scanners sessions).length =
      sessions.length * R * (scanners.filter (fun sc => !accountScoped sc)).length +
      sessions.length * (scanners.filter (fun sc => accountScoped sc)).length ∧
    (∀ t ∈ buildTasks accounts regionsArg scanners sessions,
      accountScoped t.scanner_name = true → t.region = "Global") ∧
    (∀ sc, scanners.count sc = 1 → accountScoped sc = true →
      ((buildTasks accounts regionsArg scanners sessions).filter
        (fun t => t.scanner_name == sc)).length = sessions.length) ∧
    (∀ sc, scanners.count sc = 1 → accountScoped sc = false →
      ((buildTasks accounts regionsArg scanners sessions).filter
        (fun t => t.scanner_name == sc)).length = sessions.length * R) := by
  refine ⟨?_, ?_, ?_, ?_⟩
  · unfold buildTasks
    induction sessions with
    | nil => simp
    | cons s rest ih =>
      simp only [List.flatMap_cons, List.length_append, List.length_cons]
      rw [tasksForSession_length accounts regionsArg scanners s
          (hkeep s (List.mem_cons_self _ _)),
        hreg s (List.mem_cons_self _ _),
        ih (fun s' hs' => hkeep s' (List.mem_cons_of_mem _ hs'))
          (fun s' hs' => hreg s' (List.mem_cons_of_mem _ hs'))]
      ring
  · intro t ht hsc
    unfold buildTasks at ht
    rw [List.mem_flatMap] at ht
    obtain ⟨s, _, ht⟩ := ht
    unfold tasksForSession at ht
    by_cases hk : keepSession accounts s.account_id = true
    · rw [if_pos hk] at ht
      rw [List.mem_flatMap] at ht
      obtain ⟨sc, _, ht⟩ := ht
      by_cases ha : accountScoped sc = true
      · rw [if_pos ha] at ht
        simp at ht
        rw [ht]
      · rw [if_neg ha] at ht
        rw [List.mem_map] at ht
        obtain ⟨r, _, ht⟩ := ht
        rw [← ht] at hsc
        exact absurd hsc ha
    · rw [if_neg hk] at ht
      cases ht
  · intro sc hcount ha
    unfold buildTasks
    induction sessions with
    | nil => simp
    | cons s rest ih =>
      simp only [List.flatMap_cons, List.filter_append, List.length_append,
        List.length_cons]
      rw [ih (fun s' hs' => hkeep s' (List.mem_cons_of_mem _ hs'))
          (fun s' hs' => hreg s' (List.mem_cons_of_mem _ hs'))]
      unfold tasksForSession
      rw [if_pos (hkeep s (List.mem_cons_self _ _))]
      rw [flatMap_filter_scanner_length _ _ _ (taskBranch_scanner_name s _ _)]
      rw [hcount, ha, one_mul, if_pos rfl]
      simp only [List.length_singleton]
      omega
  · intro sc hcount ha
    unfold buildTasks
    induction sessions with
    | nil => simp
    | cons s rest ih =>
      simp only [List.flatMap_cons, List.filter_append, List.length_append,
        List.length_cons]
      rw [ih (fun s' hs' => hkeep s' (List.mem_cons_of_mem _ hs'))
          (fun s' hs' => hreg s' (List.mem_cons_of_mem _ hs'))]
      unfold tasksForSession
      rw [if_pos (hkeep s (List.mem_cons_self _ _))]
      rw [flatMap_filter_scanner_length _ _ _ (taskBranch_scanner_name s _ _)]
      rw [hcount, ha, one_mul, if_neg (by simp), List.length_map,
        hreg s (List.mem_cons_self _ _)]
      ring

/-- Witness for C2: the spec's own scenario — two accounts, two regions
each, one region-scoped scanner (`ec2`) and one IAM-class scanner
(`iam-roles`) — yields `2*2*1 + 2*1 = 6` tasks: one `"Global"` task per
account for `iam-roles` and one per (account, region) pair for `ec2`. -/
theorem C2_task_matrix_counts_witness :
    (buildTasks cfgDemo.accounts cfgDemo.regionsArg cfgDemo.scanners
      [sessionDemoA, sessionDemoB]).length = 6 ∧
    ((buildTasks cfgDemo.accounts cfgDemo.regionsArg cfgDemo.scanners
      [sessionDemoA, sessionDemoB]).filter
        (fun t => t.scanner_name == "iam-roles")).length = 2 ∧
    ((buildTasks cfgDemo.accounts cfgDemo.regionsArg cfgDemo.scanners
      [sessionDemoA, sessionDemoB]).filter
        (fun t => t.scanner_name == "ec2")).length = 2 * 2 := by
  have h := C2_task_matrix_counts cfgDemo.accounts cfgDemo.regionsArg cfgDemo.scanners
    [sessionDemoA, sessionDemoB] 2 (by decide) (by decide)
  refine ⟨?_, ?_, ?_⟩
  · rw [h.1]
    decide
  · exact h.2.2.1 "iam-roles" (by decide) (by decide)
  · exact h.2.2.2 "ec2" (by decide) (by decide)

/-! ## C7 — pre-flight scanner validation -/

/-- If any requested name is unresolvable, the validation loop raises. -/
theorem validateScanners_error (r : Registry) (names : List String)
    (h : ∃ name ∈ names, ∃ e, get_scanner r name = .error e) :
    ∃ e, validateScanners r names = .error e := by
  induction names with
  | nil =>
    rcases h with ⟨name, hmem, _⟩
    cases hmem
  | cons name rest ih =>
    unfold validateScanners
    split
    · next e heq => exact ⟨e, rfl⟩
    · next c heq =>
      have h' : ∃ nm ∈ rest, ∃ e, get_scanner r nm = .error e := by
        rcases h with ⟨nm, hmem, e, he⟩
        rcases List.mem_cons.mp hmem with rfl | hmem'
        · rw [he] at heq
          cases heq
        · exact ⟨nm, hmem', e, he⟩
      rcases ih h' with ⟨e, he⟩
      rw [he]
      exact ⟨e, rfl⟩

/-- Any error from the validation loop is a `get_scanner` lookup error. -/
theorem validateScanners_error_source (r : Registry) (names : List String) (e : String)
    (h : validateScanners r names = .error e) :
    ∃ name, get_scanner r name = .error e := by
  induction names with
  | nil => cases h
  | cons name rest ih =>
    unfold validateScanners at h
    split at h
    · next e' heq =>
      cases h
      exact ⟨name, heq⟩
    · next c heq =>
      split at h
      · next e' heq2 =>
        cases h
        exact ih heq2
      · next names' heq2 =>
        cases h

/-- An unresolvable name among the requested scanners makes
`get_scanners` raise. -/
theorem get_scanners_error_of_bad_alias (r : Registry) (argS : String)
    (hne : argS ≠ "all") (hne' : argS ≠ "")
    (h : ∃ name ∈ splitComma argS, ∃ e, get_scanner r name = .error e) :
    ∃ e, get_scanners r argS = .error e := by
  unfold get_scanners
  rw [if_neg (by simpa using hne), if_pos (by simpa using hne')]
  rcases validateScanners_error r _ h with ⟨e, he⟩
  rw [he]
  exact ⟨e, rfl⟩

/-- Every error from `get_scanners` is a `get_scanner` lookup error or the
empty-scanner-list exit. -/
theorem get_scanners_error_source (r : Registry) (argS : String) (e : String)
    (h : get_scanners r argS = .error e) :
    (∃ name, get_scanner r name = .error e) ∨
    e = "No valid scanners were provided." := by
  unfold get_scanners at h
  split at h
  · cases h
  · split at h
    · split at h
      · next e' heq =>
        cases h
        exact Or.inl (validateScanners_error_source r _ _ heq)
      · next names heq =>
        split at h
        · cases h
          exact Or.inr rfl
        · cases h
    · cases h

/-- With the organization session cached or an organization role
configured, `get_organization_accountsE` passes the listing outcome
through: a pagination exception is re-raised unchanged. -/
theorem get_organization_accountsE_not_config (organization_role : Option String)
    (cached : Bool) (listing : Except String (List OrgAccount))
    (h : cached = true ∨ organization_role.isSome) :
    get_organization_accountsE organization_role cached listing =
      match listing with
      | .error e => .error e
      | .ok rawAccounts => .ok (rawAccounts.filter (fun a => a.Status == "ACTIVE")) := by
  unfold get_organization_accountsE
  have hcond : (!cached && organization_role.isNone) = false := by
    rcases h with h | h
    · rw [h]
      rfl
    · rcases organization_role with _ | v
      · simp at h
      · simp
  rw [hcond]
  rfl

/-- A listing fixture: the Organizations `list_accounts` pagination raises a
`ClientError`. -/
def orgListingError : String :=
  "ClientError: rate exceeded while listing organization accounts"

/-- A run configuration in which the Organizations listing raises. -/
def cfgOrgFail : ExecCfgE :=
  { organization_role := some "OrgQueryRole", orgSessionCached := true,
    listing := .error orgListingError,
    outcome := fun _ => none,
    accounts := [], regionsArg := .all, scanners := ["ec2"],
    env := envBase, startTime := 0, endTime := 3 }

/-- A session whose `get_caller_identity` call raises. -/
def sessionEFail : SessionE :=
  { sts := .error "ClientError: sts get_caller_identity failed",
    regionsCall := .ok ["us-east-1"] }

/-- A run configuration in which the listing succeeds but the assumed
session's `get_account_id()` call raises inside `execute`. -/
def cfgStsFail : ExecCfgE :=
  { organization_role := some "OrgQueryRole", orgSessionCached := true,
    listing := .ok [orgA],
    outcome := fun _ => some sessionEFail,
    accounts := [], regionsArg := .all, scanners := ["ec2"],
    env := envBase, startTime := 0, endTime := 3 }

/-- Counterexample for C7: the claim says the lookup error, together with
`ConfigurationError`, is the only kind that escapes to the caller.  With a
perfectly valid requested scanner list, a `ClientError` raised while
paginating the Organizations listing is re-raised (session_manager.py lines
199-201 and 257-259) and escapes the pipeline unchanged — an error that is
neither a scanner lookup error nor the configuration error. -/
theorem C7_other_error_escapes_counterexample :
    get_scanners regDemo "ec2" = .ok ["ec2"] ∧
    mainPipelineE regDemo "ec2" cfgOrgFail = .error orgListingError ∧
    startsWithStr "Scanner with identifier" orgListingError = false ∧
    orgListingError
      ≠ "Organization role is required to get organization accounts but was not provided." := by
  exact ⟨rfl, rfl, by decide, by decide⟩

/-- C7 (amended): an unregistered scanner alias in the requested list makes
`ArgumentParser.get_scanners` raise its lookup error during pre-flight
validation; in the `main.py` pipeline this error propagates from before the
`Executor` is constructed, so `execute` never runs and no task is
dispatched, and every `get_scanners` error is a lookup error (or its
empty-list exit).  But the lookup error and the `ConfigurationError` are
*not* the only kinds that escape to the caller: an exception from the
Organizations listing is re-raised out of the session fan-out and escapes
`execute`, and a `ClientError` from the uncaught `session.get_account_id()`
call during task construction escapes `execute` as well. -/
theorem C7_preflight_lookup_and_escapes (r : Registry) (argS : String) (cfg : ExecCfgE)
    (hne : argS ≠ "all") (hne' : argS ≠ "")
    (hbad : ∃ name ∈ splitComma argS, ∃ e, get_scanner r name = .error e) :
    (∃ e, get_scanners r argS = .error e ∧ mainPipelineE r argS cfg = .error e) ∧
    (∀ e, get_scanners r argS = .error e →
      (∃ name, get_scanner r name = .error e) ∨
      e = "No valid scanners were provided.") ∧
    (∀ (cfg' : ExecCfgE) (e : String),
      (cfg'.orgSessionCached = true ∨ cfg'.organization_role.isSome) →
      cfg'.listing = .error e → executeE cfg' = .error e) ∧
    (∀ (cfg' : ExecCfgE) (e : String) (s : SessionE) (rest : List SessionE),
      assume_destination_role_in_all_accountsE cfg'.organization_role cfg'.orgSessionCached
          cfg'.listing cfg'.outcome = .ok (s :: rest) →
      s.sts = .error e → executeE cfg' = .error e) := by
  refine ⟨?_, ?_, ?_, ?_⟩
  · rcases get_scanners_error_of_bad_alias r argS hne hne' hbad with ⟨e, he⟩
    refine ⟨e, he, ?_⟩
    unfold mainPipelineE
    rw [he]
  · intro e he
    exact get_scanners_error_source r argS e he
  · intro cfg' e hok hlist
    unfold executeE assume_destination_role_in_all_accountsE
    rw [get_organization_accountsE_not_config cfg'.organization_role cfg'.orgSessionCached
      cfg'.listing hok, hlist]
  · intro cfg' e s rest hses hsts
    unfold executeE
    rw [hses]
    show (match buildTasksE cfg'.accounts cfg'.regionsArg cfg'.scanners (s :: rest) with
      | .error e => (.error e : Except String (List ScanRecord × Metrics))
      | .ok tasks =>
        .ok ((collect (tasks.map (fun (t : Task) => scan_region_scanner cfg'.env t.account_id
            t.account_name t.region t.scanner_name))).1,
          mkMetrics (collect (tasks.map (fun (t : Task) => scan_region_scanner cfg'.env
            t.account_id t.account_name t.region t.scanner_name))).2
            cfg'.startTime cfg'.endTime)) = .error e
    unfold buildTasksE
    rw [hsts]

/-- Witness for C7 (amended): the unregistered alias `"bogus"` raises the
lookup error through the pipeline; the Organizations `ClientError` of
`cfgOrgFail` escapes `executeE`; and the STS `ClientError` of `cfgStsFail`
escapes `executeE` during task construction. -/
theorem C7_preflight_lookup_and_escapes_witness :
    (∃ e, get_scanners regDemo "bogus" = .error e ∧
      mainPipelineE regDemo "bogus" cfgOrgFail = .error e) ∧
    executeE cfgOrgFail = .error orgListingError ∧
    executeE cfgStsFail = .error "ClientError: sts get_caller_identity failed" := by
  have h := C7_preflight_lookup_and_escapes regDemo "bogus" cfgOrgFail (by decide) (by decide)
    ⟨"bogus", by decide, "Scanner with identifier " ++ "bogus" ++
      " not found (by class name, argument_name, or label).", by rfl⟩
  refine ⟨h.1, ?_, ?_⟩
  · exact h.2.2.1 cfgOrgFail orgListingError (Or.inl rfl) rfl
  · exact h.2.2.2 cfgStsFail "ClientError: sts get_caller_identity failed"
      sessionEFail [] (by rfl) rfl

/-! ## C8 — partial success of the role fan-out -/

/-- Every task of one session's task list carries that session's account
id. -/
theorem tasksForSession_account_id (accounts : List Account) (regionsArg : RegionsArg)
    (scanners : List String) (s : Session) (t : Task)
    (ht : t ∈ tasksForSession accounts regionsArg scanners s) :
    t.account_id = s.account_id := by
  unfold tasksForSession at ht
  by_cases hk : keepSession accounts s.account_id = true
  · rw [if_pos hk] at ht
    rw [List.mem_flatMap] at ht
    obtain ⟨sc, _, ht⟩ := ht
    by_cases ha : accountScoped sc = true
    · rw [if_pos ha] at ht
      simp at ht
      rw [ht]
    · rw [if_neg ha] at ht
      rw [List.mem_map] at ht
      obtain ⟨r, _, ht⟩ := ht
      rw [← ht]
  · rw [if_neg hk] at ht
    cases ht

/-- Dropping the sessions of one account from the session list filters
exactly that account's tasks out of the task matrix. -/
theorem buildTasks_filter_account (accounts : List Account) (regionsArg : RegionsArg)
    (scanners : List String) (sessions : List Session) (bId : String) :
    buildTasks accounts regionsArg scanners (sessions.filter (fun s => s.account_id != bId))
      = (buildTasks accounts regionsArg scanners sessions).filter
          (fun t => t.account_id != bId) := by
  induction sessions with
  | nil => rfl
  | cons s rest ih =>
    unfold buildTasks
    rw [List.filter_cons, List.flatMap_cons, List.filter_append]
    by_cases h : (s.account_id != bId) = true
    · rw [if_pos h, List.flatMap_cons]
      have hall : (tasksForSession accounts regionsArg scanners s).filter
          (fun t => t.account_id != bId) = tasksForSession accounts regionsArg scanners s := by
        rw [List.filter_eq_self]
        intro t ht
        rw [tasksForSession_account_id accounts regionsArg scanners s t ht]
        exact h
      rw [hall]
      unfold buildTasks at ih
      rw [ih]
    · rw [if_neg h]
      have hnil : (tasksForSession accounts regionsArg scanners s).filter
          (fun t => t.account_id != bId) = [] := by
        rw [List.filter_eq_nil_iff]
        intro t ht
        rw [tasksForSession_account_id accounts regionsArg scanners s t ht]
        simpa using h
      rw [hnil]
      unfold buildTasks at ih
      rw [ih, List.nil_append]

/-- Degrading the assumption oracle at one account keeps exactly the other
accounts' sessions. -/
theorem filterMap_outcome_drop (accountsL : List OrgAccount)
    (outcome outcome' : OrgAccount → Option Session) (bId : String)
    (hout : ∀ a, a.Id ≠ bId → outcome' a = outcome a)
    (hfail : ∀ a, a.Id = bId → outcome' a = none)
    (hsid : ∀ a s, outcome a = some s → s.account_id = a.Id) :
    accountsL.filterMap outcome'
      = (accountsL.filterMap outcome).filter (fun s => s.account_id != bId) := by
  induction accountsL with
  | nil => rfl
  | cons a rest ih =>
    by_cases h : a.Id = bId
    · rw [List.filterMap_cons, hfail a h, List.filterMap_cons]
      rcases ho : outcome a with _ | s
      · exact ih
      · rw [List.filter_cons]
        have hb : (s.account_id != bId) = false := by
          simp [hsid a s ho, h]
        rw [hb]
        simpa using ih
    · rw [List.filterMap_cons, List.filterMap_cons, hout a h]
      rcases ho : outcome a with _ | s
      · exact ih
      · rw [List.filter_cons]
        have hb : (s.account_id != bId) = true := by
          rw [hsid a s ho]
          exact bne_iff_ne.mpr h
        rw [hb, if_pos rfl, ih]

/-- `executeTasks` under a successful session fan-out. -/
theorem executeTasks_ok (cfg : ExecCfg) (sessions : List Session)
    (h : assume_destination_role_in_all_accounts cfg.organization_role cfg.orgSessionCached
      cfg.rawAccounts cfg.outcome = .ok sessions) :
    executeTasks cfg = buildTasks cfg.accounts cfg.regionsArg cfg.scanners sessions := by
  unfold executeTasks
  rw [h]

/-- C8: the session fan-out returns exactly the sessions of the accounts
whose role assumption succeeded; failing one account's assumption removes
exactly that account's sessions without raising; a subsequent
`Executor.execute` run still completes normally, dispatches no task for the
failed account, and leaves every other account's tasks unchanged. -/
theorem C8_partial_success (cfg : ExecCfg) (outcome' : OrgAccount → Option Session)
    (bId : String)
    (hcfgok : cfg.orgSessionCached = true ∨ cfg.organization_role.isSome)
    (hout : ∀ a, a.Id ≠ bId → outcome' a = cfg.outcome a)
    (hfail : ∀ a, a.Id = bId → outcome' a = none)
    (hsid : ∀ a s, cfg.outcome a = some s → s.account_id = a.Id) :
    assume_destination_role_in_all_accounts cfg.organization_role cfg.orgSessionCached
        cfg.rawAccounts cfg.outcome
      = .ok ((cfg.rawAccounts.filter (fun a => a.Status == "ACTIVE")).filterMap cfg.outcome) ∧
    assume_destination_role_in_all_accounts cfg.organization_role cfg.orgSessionCached
        cfg.rawAccounts outcome'
      = .ok (((cfg.rawAccounts.filter (fun a => a.Status == "ACTIVE")).filterMap
          cfg.outcome).filter (fun s => s.account_id != bId)) ∧
    (∃ out, execute { cfg with outcome := outcome' } = .ok out) ∧
    (∀ t ∈ executeTasks { cfg with outcome := outcome' }, t.account_id ≠ bId) ∧
    executeTasks { cfg with outcome := outcome' }
      = (executeTasks cfg).filter (fun t => t.account_id != bId) := by
  have hadA := assume_destination_ok cfg.organization_role cfg.orgSessionCached
    cfg.rawAccounts cfg.outcome hcfgok
  have hadB : assume_destination_role_in_all_accounts cfg.organization_role
      cfg.orgSessionCached cfg.rawAccounts outcome'
      = .ok (((cfg.rawAccounts.filter (fun a => a.Status == "ACTIVE")).filterMap
          cfg.outcome).filter (fun s => s.account_id != bId)) := by
    rw [assume_destination_ok cfg.organization_role cfg.orgSessionCached
        cfg.rawAccounts outcome' hcfgok,
      filterMap_outcome_drop _ cfg.outcome outcome' bId hout hfail hsid]
  have h5 : executeTasks { cfg with outcome := outcome' }
      = (executeTasks cfg).filter (fun t => t.account_id != bId) := by
    rw [executeTasks_ok { cfg with outcome := outcome' } _ hadB,
      executeTasks_ok cfg _ hadA]
    exact buildTasks_filter_account cfg.accounts cfg.regionsArg cfg.scanners
      ((cfg.rawAccounts.filter (fun a => a.Status == "ACTIVE")).filterMap cfg.outcome) bId
  refine ⟨hadA, hadB, execute_ok _ hcfgok, ?_, h5⟩
  intro t ht
  rw [h5] at ht
  exact bne_iff_ne.mp (List.mem_filter.mp ht).2

/-- The degraded oracle for the witness: role assumption fails for the
second demo account. -/
def outcomeDropB : OrgAccount → Option Session :=
  fun a => if a.Id == "111111111111" then some sessionDemoA else none

/-- Witness for C8 at the spec's scenario: two accounts, role assumption
failing for account B — only A's session survives, `execute` completes, and
only A's three tasks remain. -/
theorem C8_partial_success_witness :
    assume_destination_role_in_all_accounts cfgDemo.organization_role
        cfgDemo.orgSessionCached cfgDemo.rawAccounts outcomeDropB
      = .ok [sessionDemoA] ∧
    (∃ out, execute { cfgDemo with outcome := outcomeDropB } = .ok out) ∧
    executeTasks { cfgDemo with outcome := outcomeDropB }
      = (executeTasks cfgDemo).filter (fun t => t.account_id != "222222222222") := by
  have hout : ∀ a : OrgAccount, a.Id ≠ "222222222222" → outcomeDropB a = cfgDemo.outcome a := by
    intro a h
    show (if a.Id == "111111111111" then some sessionDemoA else none)
      = (if a.Id == "111111111111" then some sessionDemoA
         else if a.Id == "222222222222" then some sessionDemoB else none)
    by_cases h1 : (a.Id == "111111111111") = true
    · rw [if_pos h1, if_pos h1]
    · rw [if_neg h1, if_neg h1, if_neg (by simpa using h)]
  have hfail : ∀ a : OrgAccount, a.Id = "222222222222" → outcomeDropB a = none := by
    intro a h
    show (if a.Id == "111111111111" then some sessionDemoA else none) = none
    rw [if_neg (by simp [h])]
  have hsid : ∀ (a : OrgAccount) (s : Session),
      cfgDemo.outcome a = some s → s.account_id = a.Id := by
    intro a s h
    have h' : (if a.Id == "111111111111" then some sessionDemoA
        else if a.Id == "222222222222" then some sessionDemoB else none) = some s := h
    by_cases h1 : (a.Id == "111111111111") = true
    · rw [if_pos h1] at h'
      cases h'
      exact (beq_iff_eq.mp h1).symm
    · rw [if_neg h1] at h'
      by_cases h2 : (a.Id == "222222222222") = true
      · rw [if_pos h2] at h'
        cases h'
        exact (beq_iff_eq.mp h2).symm
      · rw [if_neg h2] at h'
        cases h'
  have h := C8_partial_success cfgDemo outcomeDropB "222222222222"
    (Or.inl rfl) hout hfail hsid
  refine ⟨?_, h.2.2.1, h.2.2.2.2⟩
  rw [h.2.1]
  rfl

/-! ## C9 — session-manager mutation -/

/-- `get_session` preserves every field of the input except possibly the
session cache it fills in. -/
theorem get_session_preserve (o : SmOracles) (s : SessionState) :
    (get_session o s).1.profile_name = s.profile_name ∧
    (get_session o s).1.region_name = s.region_name ∧
    (get_session o s).1.account_id = s.account_id ∧
    (get_session o s).1.runner_role = s.runner_role ∧
    (get_session o s).1.organization_role = s.organization_role ∧
    (get_session o s).1.regions = s.regions ∧
    (s.cachedSession.isSome = true → (get_session o s).1 = s) := by
  unfold get_session
  split
  · exact ⟨rfl, rfl, rfl, rfl, rfl, rfl, fun _ => rfl⟩
  · next heq =>
    refine ⟨rfl, rfl, rfl, rfl, rfl, rfl, ?_⟩
    intro hs
    rw [heq] at hs
    cases hs

/-- The `boto3.Session` built from the default profile. -/
def profileSessionDemo : BotoSession :=
  { access_key := "AKIAPROFILE", secret_key := "profilesecret", token := "",
    source_region := none }

/-- The `boto3.Session` carrying assumed-role credentials. -/
def assumedSessionDemo : BotoSession :=
  { access_key := "AKIATMP", secret_key := "tmpsecret", token := "tmptoken",
    source_region := none }

/-- The assumed-role credentials returned by STS. -/
def assumedCredsDemo : Creds :=
  { access_key := "AKIATMP", secret_key := "tmpsecret", token := "tmptoken" }

/-- Concrete session-manager oracles for the mutation claims. -/
def oDemo : SmOracles :=
  { profileSession := fun _ => profileSessionDemo,
    stsAccount := fun _ => "123456789012",
    describeRegions := fun _ => ["us-east-1", "us-west-2"],
    frozenCreds := fun b => ⟨b.access_key, b.secret_key, b.token⟩,
    assumeRoleCall := fun _ => some assumedCredsDemo }

/-- A freshly assumed per-account manager: `__init__` leaves
`account_id = None` (session_manager.py line 31) and `assume_role` then
installs the assumed-role session. -/
def s0Demo : SessionState :=
  { initManager oDemo "default" with cachedSession := some assumedSessionDemo }

/-- Counterexample for C9: the claim says every field of the input context
— including its account id and cached session — is left unchanged by every
operation.  `get_account_id` (session_manager.py line 75) stores the STS
answer in `self.account_id`: the field changes from `None` to the account
id, so the context is mutated. -/
theorem C9_mutation_counterexample :
    s0Demo.account_id = none ∧
    (get_account_id oDemo s0Demo).1.account_id = some "123456789012" ∧
    (get_account_id oDemo s0Demo).1 ≠ s0Demo := by
  refine ⟨rfl, by decide, ?_⟩
  intro h
  exact absurd (congrArg SessionState.account_id h) (by decide)

/-- C9 (amended): `switch_region` and `assume_role` produce new manager
instances and leave the input's profile, region binding, roles, recorded
account id and region list unchanged; but the context is not immutable:
`get_session` caches the lazily created session in the input, and
`get_account_id` overwrites the input's `account_id` with the STS answer.
The derived managers start with `account_id = None` (the `__init__`
re-assignment at line 31). -/
theorem C9_context_derivation (o : SmOracles) (s : SessionState)
    (new_region acct role : String) (sessionArg : Option SessionState) :
    ((switch_region o s new_region acct).1 = (get_session o s).1 ∧
     (get_session o s).1.profile_name = s.profile_name ∧
     (get_session o s).1.region_name = s.region_name ∧
     (get_session o s).1.account_id = s.account_id ∧
     (s.cachedSession.isSome = true → (get_session o s).1 = s)) ∧
    ((switch_region o s new_region acct).2.region_name = some new_region ∧
     (switch_region o s new_region acct).2.profile_name = s.profile_name ∧
     (switch_region o s new_region acct).2.account_id = none) ∧
    ((sessionArg.isSome = true → (assume_role o s role acct sessionArg).1 = s) ∧
     (sessionArg = none → (assume_role o s role acct sessionArg).1 = (get_session o s).1) ∧
     (∀ m, (assume_role o s role acct sessionArg).2 = .ok m →
       m.profile_name = s.profile_name ∧ m.account_id = none ∧ m.region_name = none)) ∧
    ((get_account_id o s).1.account_id = some (o.stsAccount (get_session o s).2) ∧
     (get_account_id o s).1.profile_name = s.profile_name ∧
     (get_account_id o s).1.region_name = s.region_name) := by
  have hgs := get_session_preserve o s
  refine ⟨⟨rfl, hgs.1, hgs.2.1, hgs.2.2.1, hgs.2.2.2.2.2.2⟩, ⟨rfl, rfl, rfl⟩, ?_, ?_⟩
  · refine ⟨?_, ?_, ?_⟩
    · intro hsome
      rcases sessionArg with _ | t
      · cases hsome
      · unfold assume_role
        rcases hc : o.assumeRoleCall (resolve_role_arn role acct) with _ | c <;> rfl
    · intro hnone
      subst hnone
      unfold assume_role
      rcases hc : o.assumeRoleCall (resolve_role_arn role acct) with _ | c <;> rfl
    · intro m hm
      unfold assume_role at hm
      rcases hc : o.assumeRoleCall (resolve_role_arn role acct) with _ | c
      · rw [hc] at hm
        rcases sessionArg with _ | t
        · cases hm
        · cases hm
      · rw [hc] at hm
        rcases sessionArg with _ | t
        · cases hm
          exact ⟨rfl, rfl, rfl⟩
        · cases hm
          exact ⟨rfl, rfl, rfl⟩
  · exact ⟨rfl, hgs.1, hgs.2.1⟩

/-- Witness for C9 (amended), at the concrete demo manager: switching the
region returns a fresh region-bound manager and leaves the (already cached)
input unchanged; `assume_role` with the organization session untouched
leaves `self` unchanged too. -/
theorem C9_context_derivation_witness :
    (switch_region oDemo s0Demo "us-west-2" "123456789012").1 = s0Demo ∧
    (switch_region oDemo s0Demo "us-west-2" "123456789012").2.region_name = some "us-west-2" ∧
    (assume_role oDemo s0Demo "RunnerRole" "222222222222" (some s0Demo)).1 = s0Demo := by
  have h := C9_context_derivation oDemo s0Demo "us-west-2" "123456789012" "RunnerRole"
    (some s0Demo)
  refine ⟨?_, h.2.1.1, h.2.2.1.1 rfl⟩
  rw [h.1.1]
  exact h.1.2.2.2.2 rfl

end CloudSweep
